import Mathlib

/-!
The DNS-01 solver of `main.go` (cert-manager-webhook-porkbun)

A shallow embedding of `getSubDomain`, `validate`, `secret`, `newPorkbunClient`,
`Present` and `CleanUp`, and the properties of the specification proved
(or refuted) on it.

Go strings are byte sequences; `strings.Index` and slicing work on bytes, so a
string is a `List UInt8` here.
-/

namespace Porkbun

/-! ## Strings -/

/-- A Go `string`: a sequence of bytes. -/
abbrev GoString := List UInt8

/-- The bytes of an ASCII literal (every character below 128 is one byte). -/
def ascii (s : String) : GoString := s.toList.map (fun c => c.toNat.toUInt8)

/-- The byte `'.'`. -/
def dot : UInt8 := 46

/-- First index at which `sub` occurs in `s`, scanning left to right. -/
def firstOccurrence (sub : GoString) : GoString → Option Nat
  | [] => if sub.isPrefixOf [] then some 0 else none
  | c :: t =>
    if sub.isPrefixOf (c :: t) then some 0
    else (firstOccurrence sub t).map (· + 1)

/-- Go `strings.Index(s, substr)`: the index of the first instance of `substr`
in `s`, or `-1` if `substr` is not present in `s`. -/
def stringsIndex (s substr : GoString) : Int :=
  match firstOccurrence substr s with
  | some i => (i : Int)
  | none => -1

/-- cert-manager `util.UnFqdn`: `n := len(name); if n != 0 && name[n-1] == '.'`
then `name[:n-1]`, else `name`. -/
def UnFqdn (name : GoString) : GoString :=
  if name.getLast? = some dot then name.dropLast else name

/-- `getSubDomain` of `main.go`:
`if idx := strings.Index(fqdn, "."+domain); idx != -1 { return fqdn[:idx] }`,
`return util.UnFqdn(fqdn)`. -/
def getSubDomain (domain fqdn : GoString) : GoString :=
  let idx := stringsIndex fqdn (dot :: domain)
  if idx ≠ -1 then fqdn.take idx.toNat else UnFqdn fqdn

/-! ## Errors and the data of a request -/

/-- A Go `error` value, kept structured: the format string and the arguments
of the `fmt.Errorf` (or `errors.New`) call that built it. -/
inductive GoErr where
  /-- An error returned by a collaborator (Kubernetes, JSON, the registrar client). -/
  | external (msg : GoString)
  /-- Go `errors.New(text)`. -/
  | new (text : String)
  /-- Go `fmt.Errorf(format, args...)` with string arguments only. -/
  | errorf (format : String) (args : List GoString)
  /-- Go `fmt.Errorf(format, args..., err)`: the last verb (`%w` or `%v`) takes `err`. -/
  | errorfErr (format : String) (args : List GoString) (err : GoErr)
  deriving DecidableEq, Repr

deriving instance DecidableEq for Except

/-- `corev1.SecretKeySelector`, the two fields the solver reads. -/
structure SecretKeySelector where
  Name : GoString
  Key : GoString
  deriving DecidableEq, Repr

/-- `porkbunDNSProviderConfig` of `main.go`. -/
structure porkbunDNSProviderConfig where
  APIKey : SecretKeySelector
  SecretAPIKey : SecretKeySelector
  deriving DecidableEq, Repr

/-- `v1alpha1.ChallengeRequest`, the fields the solver reads. `Config` is the
`*extapi.JSON` pointer: `none` for `nil`, otherwise the raw bytes. -/
structure ChallengeRequest where
  ResolvedZone : GoString
  ResolvedFQDN : GoString
  Key : GoString
  ResourceNamespace : GoString
  AllowAmbientCredentials : Bool
  Config : Option GoString
  deriving DecidableEq, Repr

/-- `corev1.Secret`: its `Data` map, as a lookup. -/
structure Secret where
  Data : GoString → Option GoString

/-- Modelled from the spec: the registrar-side DNS record of package `porkbun`
(its declaration is not among the sources): id, name, type, content, TTL. -/
structure Record where
  ID : GoString
  Name : GoString
  Typ : GoString
  Content : GoString
  TTL : GoString
  deriving DecidableEq, Repr

/-- Modelled from the spec: `porkbun.NewDNSRecord`, with the four fields that
`Present` fills in. -/
structure NewDNSRecord where
  Name : GoString
  Typ : GoString
  Content : GoString
  TTL : GoString
  deriving DecidableEq, Repr

/-- Modelled from the spec: the response of the record-list call, a status and
the records. -/
structure RecordsResponse where
  Status : GoString
  Records : List Record
  deriving DecidableEq, Repr

/-- Modelled from the spec: the response of a create or delete call, of which
only the status is read. -/
structure StatusResponse where
  Status : GoString
  deriving DecidableEq, Repr

/-- Modelled from the spec: the handle `porkbun.New(secretAPIKey, apiKey)`
returns, bound to the two resolved credentials and otherwise stateless. -/
structure Client where
  secretAPIKey : GoString
  apiKey : GoString
  deriving DecidableEq, Repr

/-- The success sentinel `"SUCCESS"`. -/
def SUCCESS : GoString := ascii "SUCCESS"

/-- The record type `"TXT"`. -/
def TXT : GoString := ascii "TXT"

/-- The external collaborators, as state-passing functions over the state `σ`
of the outside world: JSON decoding, the Kubernetes secret store and the three
registrar calls of the `porkbun` client. -/
structure Env (σ : Type) where
  /-- Go `json.Unmarshal(raw, &cfg)`. -/
  jsonUnmarshal : GoString → Except GoErr porkbunDNSProviderConfig
  /-- Call `p.client.CoreV1().Secrets(namespace).Get(ctx, name, ...)`. -/
  secretsGet : GoString → GoString → σ → Except GoErr Secret × σ
  /-- Call `RetrieveDNSRecordsByDomainSubdomainType(ctx, domain, subDomain, type)`. -/
  retrieve : Client → GoString → GoString → GoString → σ → Except GoErr RecordsResponse × σ
  /-- Call `CreateDNSRecord(ctx, domain, record)`. -/
  create : Client → GoString → NewDNSRecord → σ → Except GoErr StatusResponse × σ
  /-- Call `DeleteDNSRecordByDomainID(ctx, domain, id)`. -/
  delete : Client → GoString → GoString → σ → Except GoErr StatusResponse × σ

/-! ## The solver -/

/-- `loadConfig` of `main.go`. -/
def loadConfig {σ : Type} (env : Env σ) (cfgJSON : Option GoString) :
    Except GoErr porkbunDNSProviderConfig :=
  match cfgJSON with
  | none => .ok ⟨⟨[], []⟩, ⟨[], []⟩⟩
  | some raw =>
    match env.jsonUnmarshal raw with
    | .error err => .error (.errorfErr "error decoding solver config: %v" [] err)
    | .ok cfg => .ok cfg

/-- `validate` of `main.go`. -/
def validate (cfg : porkbunDNSProviderConfig) : Except GoErr Unit :=
  if cfg.APIKey.Name = [] then
    .error (.new "no API key given in porkbun webhook config")
  else if cfg.SecretAPIKey.Name = [] then
    .error (.new "no secret API key given in porkbun webhook config")
  else .ok ()

/-- `secret` of `main.go`. -/
def secret {σ : Type} (env : Env σ) (ref : SecretKeySelector) (ns : GoString) (s : σ) :
    Except GoErr GoString × σ :=
  if ref.Name = [] then (.ok [], s)
  else
    match env.secretsGet ns ref.Name s with
    | (.error err, s1) => (.error (.errorfErr "failed to load secret: %w" [] err), s1)
    | (.ok sec, s1) =>
      match sec.Data ref.Key with
      | none =>
        (.error (.errorf "key not found %q in secret '%s/%s'" [ref.Key, ns, ref.Name]), s1)
      | some bytes => (.ok bytes, s1)

/-- `newPorkbunClient` of `main.go`. -/
def newPorkbunClient {σ : Type} (env : Env σ) (ch : ChallengeRequest) (s : σ) :
    Except GoErr Client × σ :=
  match loadConfig env ch.Config with
  | .error err => (.error (.errorfErr "failed to parse webhook config: %w" [] err), s)
  | .ok cfg =>
    match (if !ch.AllowAmbientCredentials then validate cfg else .ok ()) with
    | .error err => (.error (.errorfErr "invalid config: %w" [] err), s)
    | .ok () =>
      match secret env cfg.APIKey ch.ResourceNamespace s with
      | (.error err, s1) => (.error err, s1)
      | (.ok apiKey, s1) =>
        match secret env cfg.SecretAPIKey ch.ResourceNamespace s1 with
        | (.error err, s2) => (.error err, s2)
        | (.ok secretAPIKey, s2) => (.ok ⟨secretAPIKey, apiKey⟩, s2)

/-- The first loop of `Present`: whether some record has `rec.Content == target`
(the loop returns at the first such record). -/
def recordExists (target : GoString) : List Record → Bool
  | [] => false
  | rec :: rest => if rec.Content ≠ target then recordExists target rest else true

/-- `Present` of `main.go` (the `fmt.Printf` to standard output is left out). -/
def Present {σ : Type} (env : Env σ) (ch : ChallengeRequest) (s : σ) :
    Except GoErr Unit × σ :=
  match newPorkbunClient env ch s with
  | (.error err, s1) => (.error (.errorfErr "failed to init Porkbun client: %w" [] err), s1)
  | (.ok pbClient, s1) =>
    let domain := UnFqdn ch.ResolvedZone
    let subDomain := getSubDomain domain ch.ResolvedFQDN
    let target := ch.Key
    match env.retrieve pbClient domain subDomain TXT s1 with
    | (.error err, s2) => (.error (.errorfErr "failed to get DNS records: %w" [] err), s2)
    | (.ok recordsResp, s2) =>
      if recordsResp.Status ≠ SUCCESS then
        (.error (.errorf "invalid status %q loading DNS records" [recordsResp.Status]), s2)
      else if recordExists target recordsResp.Records then (.ok (), s2)
      else
        match env.create pbClient domain ⟨subDomain, TXT, target, ascii "60"⟩ s2 with
        | (.error err, s3) => (.error (.errorfErr "failed to create DNS record: %w" [] err), s3)
        | (.ok createResp, s3) =>
          if createResp.Status ≠ SUCCESS then
            (.error (.errorf "invalid status %q creating DNS record" [createResp.Status]), s3)
          else (.ok (), s3)

/-- The loop of `CleanUp` over `recordsResp.Records`; `listStatus` is
`recordsResp.Status`, which the loop body reads for its error message. -/
def cleanUpLoop {σ : Type} (env : Env σ) (pbClient : Client) (domain target listStatus : GoString) :
    List Record → σ → Except GoErr Unit × σ
  | [], s => (.ok (), s)
  | rec :: rest, s =>
    if rec.Content ≠ target then cleanUpLoop env pbClient domain target listStatus rest s
    else
      match env.delete pbClient domain rec.ID s with
      | (.error err, s1) => (.error (.errorfErr "failed to delete DNS record: %w" [] err), s1)
      | (.ok deleteResp, s1) =>
        if deleteResp.Status ≠ SUCCESS then
          (.error (.errorf "invalid status %q deleting DNS record %q" [listStatus, rec.ID]), s1)
        else cleanUpLoop env pbClient domain target listStatus rest s1

/-- `CleanUp` of `main.go`. -/
def CleanUp {σ : Type} (env : Env σ) (ch : ChallengeRequest) (s : σ) :
    Except GoErr Unit × σ :=
  match newPorkbunClient env ch s with
  | (.error err, s1) => (.error (.errorfErr "failed to init Porkbun client: %w" [] err), s1)
  | (.ok pbClient, s1) =>
    let domain := UnFqdn ch.ResolvedZone
    let subDomain := getSubDomain domain ch.ResolvedFQDN
    let target := ch.Key
    match env.retrieve pbClient domain subDomain TXT s1 with
    | (.error err, s2) => (.error (.errorfErr "failed to load existing records: %w" [] err), s2)
    | (.ok recordsResp, s2) =>
      if recordsResp.Status ≠ SUCCESS then
        (.error (.errorf "invalid status %q loading DNS records" [recordsResp.Status]), s2)
      else cleanUpLoop env pbClient domain target recordsResp.Status recordsResp.Records s2

/-! ## Observing the calls -/

/-- One call to a collaborator, with what it returned (for the registrar calls). -/
inductive Event where
  | secretsGet (ns name : GoString)
  | retrieve (c : Client) (domain subDomain type : GoString) (out : Except GoErr RecordsResponse)
  | create (c : Client) (domain : GoString) (record : NewDNSRecord)
      (out : Except GoErr StatusResponse)
  | delete (c : Client) (domain id : GoString) (out : Except GoErr StatusResponse)
  deriving DecidableEq

/-- The environment `env` with a log: every call is appended, in order, to the
list of events carried next to the state. -/
def Env.logged {σ : Type} (env : Env σ) : Env (σ × List Event) where
  jsonUnmarshal := env.jsonUnmarshal
  secretsGet ns name w :=
    ((env.secretsGet ns name w.1).1,
      ((env.secretsGet ns name w.1).2, w.2 ++ [Event.secretsGet ns name]))
  retrieve c domain subDomain type w :=
    ((env.retrieve c domain subDomain type w.1).1,
      ((env.retrieve c domain subDomain type w.1).2,
        w.2 ++ [Event.retrieve c domain subDomain type (env.retrieve c domain subDomain type w.1).1]))
  create c domain record w :=
    ((env.create c domain record w.1).1,
      ((env.create c domain record w.1).2,
        w.2 ++ [Event.create c domain record (env.create c domain record w.1).1]))
  delete c domain id w :=
    ((env.delete c domain id w.1).1,
      ((env.delete c domain id w.1).2,
        w.2 ++ [Event.delete c domain id (env.delete c domain id w.1).1]))

/-- Whether the event is a create call. -/
def Event.isCreate : Event → Bool
  | .create _ _ _ _ => true
  | _ => false

/-- Whether the event is a delete call. -/
def Event.isDelete : Event → Bool
  | .delete _ _ _ _ => true
  | _ => false

/-- Whether the event is a secret lookup. -/
def Event.isSecretsGet : Event → Bool
  | .secretsGet _ _ => true
  | _ => false

/-- Whether the event is a registrar call (list, create or delete). -/
def Event.isRegistrar : Event → Bool
  | .secretsGet _ _ => false
  | _ => true

/-- A create or delete call failed: the call returned an error, or a response
whose status is not `"SUCCESS"`. -/
def callFailed : Except GoErr StatusResponse → Bool
  | .error _ => true
  | .ok resp => decide (resp.Status ≠ SUCCESS)

/-- The list call failed: the call returned an error, or a response whose
status is not `"SUCCESS"`. -/
def listFailed : Except GoErr RecordsResponse → Bool
  | .error _ => true
  | .ok resp => decide (resp.Status ≠ SUCCESS)

/-- The log entry of a delete call for record `rec` that reported success. -/
def deleted (c : Client) (domain : GoString) (rec : Record) : Event :=
  Event.delete c domain rec.ID (.ok ⟨SUCCESS⟩)

/-- The records of a list response whose content equals the challenge key. -/
def matching (target : GoString) (records : List Record) : List Record :=
  records.filter (fun rec => rec.Content = target)

/-- The log entry of the list call that `Present` and `CleanUp` make for the
challenge `ch` through the client `c`, with what the call returned. -/
def listCall (c : Client) (ch : ChallengeRequest) (out : Except GoErr RecordsResponse) : Event :=
  Event.retrieve c (UnFqdn ch.ResolvedZone)
    (getSubDomain (UnFqdn ch.ResolvedZone) ch.ResolvedFQDN) TXT out

/-- The log entry of the create call that `Present` makes for the challenge
`ch` through the client `c`, with what the call returned. -/
def createCall (c : Client) (ch : ChallengeRequest) (out : Except GoErr StatusResponse) : Event :=
  Event.create c (UnFqdn ch.ResolvedZone)
    ⟨getSubDomain (UnFqdn ch.ResolvedZone) ch.ResolvedFQDN, TXT, ch.Key, ascii "60"⟩ out

/-- Whether the event is a delete call that failed. -/
def Event.deleteFailed : Event → Bool
  | .delete _ _ _ out => callFailed out
  | _ => false

/-- A collaborator environment without state, for concrete runs: the secret
store holds the value `"k"` under every name and key, configuration bytes
decode to the references `(raw, "key")` and `(raw, "secret")`, the list call
returns `listOut`, the create call `createOut`, and the delete call for `id`
returns `deleteOut id`. -/
def stubEnv (listOut : Except GoErr RecordsResponse) (createOut : Except GoErr StatusResponse)
    (deleteOut : GoString → Except GoErr StatusResponse) : Env Unit where
  jsonUnmarshal raw := .ok ⟨⟨raw, ascii "key"⟩, ⟨raw, ascii "secret"⟩⟩
  secretsGet _ _ u := (.ok ⟨fun _ => some (ascii "k")⟩, u)
  retrieve _ _ _ _ u := (listOut, u)
  create _ _ _ u := (createOut, u)
  delete _ _ id u := (deleteOut id, u)

/-- A challenge for `_acme-challenge.example.com.` in zone `example.com.` with
key `"tok"`, configured with the secret name `"pb"`. -/
def sampleChallenge : ChallengeRequest where
  ResolvedZone := ascii "example.com."
  ResolvedFQDN := ascii "_acme-challenge.example.com."
  Key := ascii "tok"
  ResourceNamespace := ascii "ns"
  AllowAmbientCredentials := false
  Config := some (ascii "pb")

/-- The client that `newPorkbunClient` builds for `sampleChallenge` in a
`stubEnv`: both credentials are `"k"`. -/
def sampleClient : Client := ⟨ascii "k", ascii "k"⟩

/-- Three TXT records under `_acme-challenge`: ids `1` and `3` hold the key
`"tok"` of `sampleChallenge`, id `2` holds another value. -/
def sampleRecords : List Record :=
  [⟨ascii "1", ascii "_acme-challenge", TXT, ascii "tok", ascii "60"⟩,
   ⟨ascii "2", ascii "_acme-challenge", TXT, ascii "other", ascii "60"⟩,
   ⟨ascii "3", ascii "_acme-challenge", TXT, ascii "tok", ascii "60"⟩]

/-- A delete that succeeds for every id but `"3"`, for which the registrar
answers with status `"ERROR"`. -/
def failOnThree (id : GoString) : Except GoErr StatusResponse :=
  if id = ascii "3" then .ok ⟨ascii "ERROR"⟩ else .ok ⟨SUCCESS⟩

/-! ## A registrar -/

/-- Modelled from the spec: the state of the registrar, which is not part of
the sources: the records it holds, each under its domain, and a counter for
the ids it hands out. -/
structure Registrar where
  records : List (GoString × Record)
  nextID : Nat
  deriving DecidableEq, Repr

/-- Modelled from the spec: the list call returns all the records of the given
type under (domain, subdomain). -/
def Registrar.list (st : Registrar) (domain subDomain type : GoString) : List Record :=
  (st.records.filter
    (fun p => p.1 = domain ∧ p.2.Name = subDomain ∧ p.2.Typ = type)).map Prod.snd

/-- Modelled from the spec: a successful create adds a record with the given
name, type, content and TTL under the domain, with a fresh id. -/
def Registrar.add (st : Registrar) (domain : GoString) (new : NewDNSRecord) : Registrar :=
  ⟨st.records ++
      [(domain, ⟨ascii (toString st.nextID), new.Name, new.Typ, new.Content, new.TTL⟩)],
    st.nextID + 1⟩

/-- Modelled from the spec: delete-by-id removes the records of the domain with
that id. -/
def Registrar.remove (st : Registrar) (domain id : GoString) : Registrar :=
  ⟨st.records.filter (fun p => ¬ (p.1 = domain ∧ p.2.ID = id)), st.nextID⟩

/-- Modelled from the spec: the collaborators when every remote call succeeds:
the registrar calls act on the `Registrar` state and report `"SUCCESS"`, and
the secret store `secrets` and the decoder `unmarshal` are fixed. -/
def registrarEnv (unmarshal : GoString → Except GoErr porkbunDNSProviderConfig)
    (secrets : GoString → GoString → Except GoErr Secret) : Env Registrar where
  jsonUnmarshal := unmarshal
  secretsGet ns name st := (secrets ns name, st)
  retrieve _ domain subDomain type st := (.ok ⟨SUCCESS, st.list domain subDomain type⟩, st)
  create _ domain record st := (.ok ⟨SUCCESS⟩, st.add domain record)
  delete _ domain id st := (.ok ⟨SUCCESS⟩, st.remove domain id)

/-- A decoder for concrete runs: the configuration bytes `raw` decode to the
references `(raw, "key")` and `(raw, "secret")`. -/
def sampleUnmarshal (raw : GoString) : Except GoErr porkbunDNSProviderConfig :=
  .ok ⟨⟨raw, ascii "key"⟩, ⟨raw, ascii "secret"⟩⟩

/-- A secret store for concrete runs: the value `"k"` under every name and key. -/
def sampleSecrets (_ns _name : GoString) : Except GoErr Secret :=
  .ok ⟨fun _ => some (ascii "k")⟩

/-! ## Facts about `strings.Index` -/

theorem firstOccurrence_some {sub : GoString} :
    ∀ {s : GoString} {i : Nat}, firstOccurrence sub s = some i →
      sub <+: s.drop i ∧ i ≤ s.length ∧ ∀ j, j < i → ¬ sub <+: s.drop j
  | [], i, h => by
    simp only [firstOccurrence] at h
    split at h
    · rename_i hp
      cases h
      exact ⟨by simpa using List.isPrefixOf_iff_prefix.mp hp, by simp, by simp⟩
    · cases h
  | c :: t, i, h => by
    simp only [firstOccurrence] at h
    split at h
    · rename_i hp
      cases h
      exact ⟨by simpa using List.isPrefixOf_iff_prefix.mp hp, by simp, by simp⟩
    · rename_i hp
      cases hrec : firstOccurrence sub t with
      | none => simp [hrec] at h
      | some k =>
        simp only [hrec, Option.map_some', Option.some.injEq] at h
        subst h
        obtain ⟨h1, h2, h3⟩ := firstOccurrence_some hrec
        refine ⟨by simpa using h1, by simpa using h2, ?_⟩
        intro j hj
        cases j with
        | zero =>
          intro hpre
          exact hp (List.isPrefixOf_iff_prefix.mpr (by simpa using hpre))
        | succ j => simpa using h3 j (by omega)

theorem firstOccurrence_none {sub : GoString} :
    ∀ {s : GoString}, firstOccurrence sub s = none → ∀ j, ¬ sub <+: s.drop j
  | [], h, j => by
    simp only [firstOccurrence] at h
    split at h
    · cases h
    · rename_i hp
      intro hpre
      exact hp (List.isPrefixOf_iff_prefix.mpr (by simpa using hpre))
  | c :: t, h, j => by
    simp only [firstOccurrence] at h
    split at h
    · cases h
    · rename_i hp
      have hrec : firstOccurrence sub t = none := by
        cases hr : firstOccurrence sub t with
        | none => rfl
        | some k => simp [hr] at h
      cases j with
      | zero =>
        intro hpre
        exact hp (List.isPrefixOf_iff_prefix.mpr (by simpa using hpre))
      | succ j => simpa using firstOccurrence_none hrec j

/-- The substring `sub` occurs in `s` exactly when it is a prefix of some tail. -/
theorem infix_iff_prefix_drop {sub s : GoString} :
    sub <:+: s ↔ ∃ j, sub <+: s.drop j := by
  constructor
  · rintro ⟨a, b, rfl⟩
    exact ⟨a.length, by simp [List.append_assoc]⟩
  · rintro ⟨j, hj⟩
    exact List.IsInfix.trans hj.isInfix (List.drop_suffix j s).isInfix

theorem firstOccurrence_eq_none_iff {sub s : GoString} :
    firstOccurrence sub s = none ↔ ¬ sub <:+: s := by
  constructor
  · intro h hin
    obtain ⟨j, hj⟩ := infix_iff_prefix_drop.mp hin
    exact firstOccurrence_none h j hj
  · intro h
    cases hr : firstOccurrence sub s with
    | none => rfl
    | some i =>
      exact absurd (infix_iff_prefix_drop.mpr ⟨i, (firstOccurrence_some hr).1⟩) h

/-- A position at which `sub` occurs and before which it does not is the one
`strings.Index` finds. -/
theorem firstOccurrence_eq_some {sub s : GoString} {i : Nat}
    (h1 : sub <+: s.drop i) (h2 : ∀ j, j < i → ¬ sub <+: s.drop j) :
    firstOccurrence sub s = some i := by
  cases hr : firstOccurrence sub s with
  | none => exact absurd h1 (firstOccurrence_none hr i)
  | some k =>
    obtain ⟨k1, _, k3⟩ := firstOccurrence_some hr
    rcases Nat.lt_trichotomy k i with hlt | heq | hgt
    · exact absurd k1 (h2 k hlt)
    · rw [heq]
    · exact absurd h1 (k3 i hgt)

theorem getSubDomain_of_some {domain fqdn : GoString} {i : Nat}
    (h : firstOccurrence (dot :: domain) fqdn = some i) :
    getSubDomain domain fqdn = fqdn.take i := by
  simp [getSubDomain, stringsIndex, h]

theorem getSubDomain_of_none {domain fqdn : GoString}
    (h : firstOccurrence (dot :: domain) fqdn = none) :
    getSubDomain domain fqdn = UnFqdn fqdn := by
  simp [getSubDomain, stringsIndex, h]

theorem UnFqdn_append_dot (g : GoString) : UnFqdn (g ++ [dot]) = g := by
  simp [UnFqdn]

theorem UnFqdn_no_dot {f : GoString} (h : ∀ g, f ≠ g ++ [dot]) : UnFqdn f = f := by
  unfold UnFqdn
  split
  · rename_i hl
    exfalso
    rcases List.eq_nil_or_concat f with hnil | ⟨L, b, hb⟩
    · simp [hnil] at hl
    · subst hb
      simp at hl
      exact h L (by simp [hl])
  · rfl

theorem firstOccurrence_isSome_of_infix {sub s : GoString} (h : sub <:+: s) :
    ∃ i, firstOccurrence sub s = some i := by
  cases hr : firstOccurrence sub s with
  | none => exact absurd h (firstOccurrence_eq_none_iff.mp hr)
  | some i => exact ⟨i, rfl⟩

theorem UnFqdn_prefix (f : GoString) : UnFqdn f <+: f := by
  unfold UnFqdn
  split
  · exact List.dropLast_prefix f
  · exact List.prefix_refl f

theorem getSubDomain_prefix (d f : GoString) : getSubDomain d f <+: f := by
  cases hr : firstOccurrence (dot :: d) f with
  | none => rw [getSubDomain_of_none hr]; exact UnFqdn_prefix f
  | some i => rw [getSubDomain_of_some hr]; exact List.take_prefix i f

/-- A string that is all dots is the only fixed point of moving a dot from the
front to the back. -/
theorem all_dots_of_rotate : ∀ d : GoString, dot :: d = d ++ [dot] → ∀ c ∈ d, c = dot
  | [], _, c, hc => by simp at hc
  | a :: t, h, c, hc => by
    simp only [List.cons_append, List.cons.injEq] at h
    obtain ⟨ha, ht⟩ := h
    rcases List.mem_cons.mp hc with rfl | hmem
    · exact ha.symm
    · exact all_dots_of_rotate t (by rw [← ha] at ht; exact ht) c hmem

/-- The label of `s.d.` is `s` exactly when `.d` does not occur in it before
the end of `s`. -/
theorem getSubDomain_label_iff (d s : GoString) :
    getSubDomain d (s ++ dot :: d ++ [dot]) = s ↔
      ∀ j, j < s.length → ¬ (dot :: d) <+: (s ++ dot :: d ++ [dot]).drop j := by
  have hocc : (dot :: d) <+: (s ++ dot :: d ++ [dot]).drop s.length := by
    simp [List.append_assoc]
  constructor
  · intro h j hj hpre
    obtain ⟨i, hi⟩ := firstOccurrence_isSome_of_infix (infix_iff_prefix_drop.mpr ⟨j, hpre⟩)
    obtain ⟨_, _, h3⟩ := firstOccurrence_some hi
    have hij : i ≤ j := by
      by_contra hlt
      exact h3 j (by omega) hpre
    rw [getSubDomain_of_some hi] at h
    have hlen := congrArg List.length h
    simp at hlen
    omega
  · intro h
    rw [getSubDomain_of_some (firstOccurrence_eq_some hocc h)]
    simp [List.append_assoc]

/-! ## The claims about `getSubDomain` -/

/-- C1 (the code departs from it): for zone `example.com` and the record name
`_acme-challenge.www.example.com.example.com.`, whose label under the zone is
`_acme-challenge.www.example.com`, `getSubDomain` returns
`_acme-challenge.www`: it cuts at the first occurrence of `.example.com`,
which lies inside the label. -/
theorem getSubDomain_cuts_inside_label :
    getSubDomain (ascii "example.com")
        (ascii "_acme-challenge.www.example.com" ++ dot :: ascii "example.com" ++ [dot])
      = ascii "_acme-challenge.www" ∧
    getSubDomain (ascii "example.com")
        (ascii "_acme-challenge.www.example.com" ++ dot :: ascii "example.com" ++ [dot])
      ≠ ascii "_acme-challenge.www.example.com" := by
  decide

/-- C2: when `"." + d` does not occur in `f`, `getSubDomain d f` is `f` without
its one trailing dot (`g` when `f = g + "."`, and `f` itself when `f` does not
end in a dot); and for a domain `d` with at least one byte other than a dot,
`getSubDomain d (d + ".") = d`. -/
theorem getSubDomain_fallback (d f : GoString) :
    (¬ (dot :: d) <:+: f →
      (∀ g, f = g ++ [dot] → getSubDomain d f = g) ∧
      ((∀ g, f ≠ g ++ [dot]) → getSubDomain d f = f)) ∧
    ((∃ c ∈ d, c ≠ dot) → getSubDomain d (d ++ [dot]) = d) := by
  constructor
  · intro h
    have hn := firstOccurrence_eq_none_iff.mpr h
    rw [getSubDomain_of_none hn]
    exact ⟨fun g hg => by rw [hg]; exact UnFqdn_append_dot g, fun hg => UnFqdn_no_dot hg⟩
  · rintro ⟨c, hc, hne⟩
    have hnot : ¬ (dot :: d) <:+: (d ++ [dot]) := by
      intro hin
      have heq : dot :: d = d ++ [dot] := List.IsInfix.eq_of_length hin (by simp)
      exact hne (all_dots_of_rotate d heq c hc)
    rw [getSubDomain_of_none (firstOccurrence_eq_none_iff.mpr hnot)]
    exact UnFqdn_append_dot d

/-- Witness of C2 at domain `example.com`: the FQDN `example.com.` falls back to
`example.com`, and the dot-free `localhost` is returned unchanged. -/
theorem getSubDomain_fallback_witness :
    getSubDomain (ascii "example.com") (ascii "example.com" ++ [dot]) = ascii "example.com" ∧
    getSubDomain (ascii "example.com") (ascii "example.com." ) = ascii "example.com" ∧
    getSubDomain (ascii "example.com") (ascii "localhost") = ascii "localhost" :=
  ⟨(getSubDomain_fallback (ascii "example.com") (ascii "example.com.")).2
      ⟨101, by decide, by decide⟩,
    ((getSubDomain_fallback (ascii "example.com") (ascii "example.com.")).1 (by decide)).1
      (ascii "example.com") (by decide),
    ((getSubDomain_fallback (ascii "example.com") (ascii "localhost")).1 (by decide)).2
      (by
        intro g hg
        have hlast := congrArg List.getLast? hg
        simp [ascii, dot] at hlast
        exact absurd hlast (by decide))⟩

/-- C9: when `"." + d` occurs in `f`, the result `r` of `getSubDomain d f` is the
prefix of `f` that ends just before the leftmost occurrence: `r + "." + d` is a
prefix of `f`, and no strictly shorter prefix `r'` of `f` has `r' + "." + d` as
a prefix of `f`. In every case the result is a prefix of `f`. -/
theorem getSubDomain_first_occurrence (d f : GoString) :
    ((dot :: d) <:+: f →
      (getSubDomain d f ++ dot :: d) <+: f ∧
      ∀ r, r <+: f → r.length < (getSubDomain d f).length → ¬ (r ++ dot :: d) <+: f) ∧
    getSubDomain d f <+: f := by
  refine ⟨fun h => ?_, getSubDomain_prefix d f⟩
  obtain ⟨i, hi⟩ := firstOccurrence_isSome_of_infix h
  obtain ⟨h1, h2, h3⟩ := firstOccurrence_some hi
  rw [getSubDomain_of_some hi]
  constructor
  · obtain ⟨t, ht⟩ := h1
    refine ⟨t, ?_⟩
    rw [List.append_assoc, ht, List.take_append_drop]
  · intro r hr hlen hpre
    have hlen2 : r.length < i := lt_of_lt_of_le hlen (by simp)
    obtain ⟨t, ht⟩ := hpre
    apply h3 r.length hlen2
    refine ⟨t, ?_⟩
    rw [← ht, List.append_assoc, List.drop_left]

/-- Witness of C9: in `a.b.example.com.example.com.` the leftmost `.example.com`
starts at index 3, so the result is `a.b`. -/
theorem getSubDomain_first_occurrence_witness :
    (getSubDomain (ascii "example.com") (ascii "a.b.example.com.example.com.")
        ++ dot :: ascii "example.com") <+: ascii "a.b.example.com.example.com." ∧
    getSubDomain (ascii "example.com") (ascii "a.b.example.com.example.com.") = ascii "a.b" :=
  ⟨((getSubDomain_first_occurrence (ascii "example.com")
      (ascii "a.b.example.com.example.com.")).1 (by decide)).1, by decide⟩

/-! ## The runs of `CleanUp` and `Present`, as logs -/

theorem callFailed_false {out : Except GoErr StatusResponse} (h : callFailed out = false) :
    out = .ok ⟨SUCCESS⟩ := by
  cases out with
  | error e => simp [callFailed] at h
  | ok resp =>
    cases resp with
    | mk st =>
      simp [callFailed] at h
      simp [h]

/-- The log of the loop of `CleanUp`: either every matching record was deleted
with success, in list order, or the run stopped at the first failing delete. -/
theorem cleanUpLoop_run {σ : Type} (env : Env σ) (c : Client) (dom tgt st : GoString) :
    ∀ (rs : List Record) (s : σ) (t : List Event) (res : Except GoErr Unit)
      (s1 : σ) (t1 : List Event),
      cleanUpLoop env.logged c dom tgt st rs (s, t) = (res, (s1, t1)) →
      (res = .ok () ∧ t1 = t ++ (matching tgt rs).map (deleted c dom)) ∨
      (∃ k rk out, (matching tgt rs)[k]? = some rk ∧ callFailed out = true ∧
        t1 = t ++ ((matching tgt rs).take k).map (deleted c dom)
          ++ [Event.delete c dom rk.ID out] ∧
        res = .error (match out with
          | .error err => GoErr.errorfErr "failed to delete DNS record: %w" [] err
          | .ok _ => GoErr.errorf "invalid status %q deleting DNS record %q" [st, rk.ID]))
  | [], s, t, res, s1, t1, h => by
    simp [cleanUpLoop] at h
    left
    simp [matching, h.1.symm, h.2.2.symm]
  | rec :: rest, s, t, res, s1, t1, h => by
    by_cases hc : rec.Content = tgt
    · have hm : matching tgt (rec :: rest) = rec :: matching tgt rest := by
        simp [matching, hc]
      rw [hm]
      simp only [cleanUpLoop, hc, ne_eq, not_true_eq_false, if_false] at h
      cases hd : env.delete c dom rec.ID s with
      | mk out s2 =>
        cases hf : callFailed out with
        | true =>
          right
          refine ⟨0, rec, out, by simp, hf, ?_, ?_⟩
          · cases out with
            | error err =>
              simp [Env.logged, hd] at h
              simp [h.2.2.symm]
            | ok resp =>
              have hst : resp.Status ≠ SUCCESS := by simpa [callFailed] using hf
              simp [Env.logged, hd, hst] at h
              simp [h.2.2.symm]
          · cases out with
            | error err =>
              simp [Env.logged, hd] at h
              simp [h.1.symm]
            | ok resp =>
              have hst : resp.Status ≠ SUCCESS := by simpa [callFailed] using hf
              simp [Env.logged, hd, hst] at h
              simp [h.1.symm, hc]
        | false =>
          have hout := callFailed_false hf
          subst hout
          simp only [Env.logged, hd] at h
          simp only [ne_eq, not_true_eq_false, if_false] at h
          rcases cleanUpLoop_run env c dom tgt st rest s2 _ res s1 t1 h with
            ⟨h1, h2⟩ | ⟨k, rk, out, h1, h2, h3, h4⟩
          · left
            refine ⟨h1, ?_⟩
            simp [h2, deleted]
          · right
            refine ⟨k + 1, rk, out, by simpa using h1, h2, ?_, h4⟩
            simp [h3, deleted]
    · have hm : matching tgt (rec :: rest) = matching tgt rest := by
        simp [matching, hc]
      rw [hm]
      simp only [cleanUpLoop, hc, ne_eq, not_false_eq_true, if_true] at h
      exact cleanUpLoop_run env c dom tgt st rest s t res s1 t1 h

/-- Logging does not change what `secret` does, and adds one lookup to the log
exactly when the reference has a name. -/
theorem secret_run {σ : Type} (env : Env σ) (ref : SecretKeySelector) (ns : GoString)
    (s : σ) (t : List Event) :
    secret env.logged ref ns (s, t) =
      ((secret env ref ns s).1, ((secret env ref ns s).2,
        t ++ (if ref.Name = [] then [] else [Event.secretsGet ns ref.Name]))) := by
  unfold secret
  by_cases hn : ref.Name = []
  · simp [hn]
  · simp only [hn, if_false]
    cases hg : env.secretsGet ns ref.Name s with
    | mk out s2 =>
      cases out with
      | error err => simp [Env.logged, hg]
      | ok sec =>
        cases hk : sec.Data ref.Key with
        | none => simp [Env.logged, hg, hk]
        | some bytes => simp [Env.logged, hg, hk]

/-- Logging does not change what `newPorkbunClient` does, and what it adds to
the log is secret lookups only. -/
theorem newPorkbunClient_run {σ : Type} (env : Env σ) (ch : ChallengeRequest)
    (s : σ) (t : List Event) :
    ∃ pre : List Event, (∀ e ∈ pre, e.isSecretsGet = true) ∧
      newPorkbunClient env.logged ch (s, t) =
        ((newPorkbunClient env ch s).1, ((newPorkbunClient env ch s).2, t ++ pre)) := by
  have hload : loadConfig env.logged ch.Config = loadConfig env ch.Config := rfl
  unfold newPorkbunClient
  rw [hload]
  cases loadConfig env ch.Config with
  | error err => exact ⟨[], by simp, by simp⟩
  | ok cfg =>
    simp only
    cases (if (!ch.AllowAmbientCredentials) = true then validate cfg else Except.ok ()) with
    | error err => exact ⟨[], by simp, by simp⟩
    | ok u =>
      simp only [secret_run]
      cases h1 : secret env cfg.APIKey ch.ResourceNamespace s with
      | mk out1 s2 =>
        cases out1 with
        | error err =>
          refine ⟨if cfg.APIKey.Name = [] then [] else
            [Event.secretsGet ch.ResourceNamespace cfg.APIKey.Name], ?_, by simp⟩
          intro e he
          split at he
          · simp at he
          · simp at he; subst he; rfl
        | ok apiKey =>
          simp only
          cases h2 : secret env cfg.SecretAPIKey ch.ResourceNamespace s2 with
          | mk out2 s3 =>
            refine ⟨(if cfg.APIKey.Name = [] then [] else
              [Event.secretsGet ch.ResourceNamespace cfg.APIKey.Name]) ++
              (if cfg.SecretAPIKey.Name = [] then [] else
              [Event.secretsGet ch.ResourceNamespace cfg.SecretAPIKey.Name]), ?_, ?_⟩
            · intro e he
              rcases List.mem_append.mp he with he | he
              · split at he
                · simp at he
                · simp at he; subst he; rfl
              · split at he
                · simp at he
                · simp at he; subst he; rfl
            · cases out2 with
              | error err => simp [secret_run, h2]
              | ok k => simp [secret_run, h2]

/-- The log of a run of `CleanUp`: secret lookups, then (if the client was
built) the list call, then (if it reported success) the run of the loop. -/
theorem CleanUp_run {σ : Type} (env : Env σ) (ch : ChallengeRequest) (s : σ) (t : List Event)
    (res : Except GoErr Unit) (s1 : σ) (t1 : List Event)
    (h : CleanUp env.logged ch (s, t) = (res, (s1, t1))) :
    ∃ pre : List Event, (∀ e ∈ pre, e.isSecretsGet = true) ∧
      ((∃ err, res = .error (.errorfErr "failed to init Porkbun client: %w" [] err) ∧
          t1 = t ++ pre) ∨
       (∃ c out, listFailed out = true ∧ t1 = t ++ pre ++ [listCall c ch out] ∧
          res = .error (match out with
            | .error err => GoErr.errorfErr "failed to load existing records: %w" [] err
            | .ok resp => GoErr.errorf "invalid status %q loading DNS records" [resp.Status])) ∨
       (∃ c resp, resp.Status = SUCCESS ∧
          ((res = .ok () ∧
              t1 = t ++ pre ++ listCall c ch (.ok resp) ::
                (matching ch.Key resp.Records).map (deleted c (UnFqdn ch.ResolvedZone))) ∨
           (∃ k rk out, (matching ch.Key resp.Records)[k]? = some rk ∧ callFailed out = true ∧
              t1 = t ++ pre ++ listCall c ch (.ok resp) ::
                ((matching ch.Key resp.Records).take k).map (deleted c (UnFqdn ch.ResolvedZone))
                ++ [Event.delete c (UnFqdn ch.ResolvedZone) rk.ID out] ∧
              res = .error (match out with
                | .error err => GoErr.errorfErr "failed to delete DNS record: %w" [] err
                | .ok _ => GoErr.errorf "invalid status %q deleting DNS record %q"
                    [SUCCESS, rk.ID]))))) := by
  obtain ⟨pre, hpre, hnpc⟩ := newPorkbunClient_run env ch s t
  refine ⟨pre, hpre, ?_⟩
  unfold CleanUp at h
  rw [hnpc] at h
  cases hc : newPorkbunClient env ch s with
  | mk cout s2 =>
    rw [hc] at h
    cases cout with
    | error err =>
      left
      simp at h
      exact ⟨err, h.1.symm, h.2.2.symm⟩
    | ok c =>
      right
      simp only at h
      cases hl : env.retrieve c (UnFqdn ch.ResolvedZone)
          (getSubDomain (UnFqdn ch.ResolvedZone) ch.ResolvedFQDN) TXT s2 with
      | mk lout s3 =>
        cases lout with
        | error err =>
          left
          simp [Env.logged, hl] at h
          exact ⟨c, .error err, rfl, by simp [listCall, h.2.2.symm], by simp [h.1.symm]⟩
        | ok resp =>
          by_cases hst : resp.Status = SUCCESS
          · right
            refine ⟨c, resp, hst, ?_⟩
            simp only [Env.logged, hl, hst, ne_eq, not_true_eq_false, if_false] at h
            rcases cleanUpLoop_run env c _ _ _ _ _ _ _ _ _ h with
              ⟨h1, h2⟩ | ⟨k, rk, out, h1, h2, h3, h4⟩
            · left
              exact ⟨h1, by simp [h2, listCall]⟩
            · right
              exact ⟨k, rk, out, h1, h2, by simp [h3, listCall], h4⟩
          · left
            simp [Env.logged, hl, hst] at h
            exact ⟨c, .ok resp, by simp [listFailed, hst],
              by simp [listCall, h.2.2.symm], by simp [h.1.symm]⟩

/-- In the first loop of `Present`, a record with the key is found exactly
when one is in the list. -/
theorem recordExists_iff (target : GoString) :
    ∀ rs : List Record, recordExists target rs = true ↔ ∃ r ∈ rs, r.Content = target
  | [] => by simp [recordExists]
  | rec :: rest => by
    by_cases hc : rec.Content = target
    · simp [recordExists, hc]
    · simp [recordExists, hc, recordExists_iff target rest]

/-- The log of a run of `Present`: secret lookups, then (if the client was
built) the list call, then (if it reported success and no record holds the
key) one create call. -/
theorem Present_run {σ : Type} (env : Env σ) (ch : ChallengeRequest) (s : σ) (t : List Event)
    (res : Except GoErr Unit) (s1 : σ) (t1 : List Event)
    (h : Present env.logged ch (s, t) = (res, (s1, t1))) :
    ∃ pre : List Event, (∀ e ∈ pre, e.isSecretsGet = true) ∧
      ((∃ err, res = .error (.errorfErr "failed to init Porkbun client: %w" [] err) ∧
          t1 = t ++ pre) ∨
       (∃ c out, listFailed out = true ∧ t1 = t ++ pre ++ [listCall c ch out] ∧
          res = .error (match out with
            | .error err => GoErr.errorfErr "failed to get DNS records: %w" [] err
            | .ok resp => GoErr.errorf "invalid status %q loading DNS records" [resp.Status])) ∨
       (∃ c resp, resp.Status = SUCCESS ∧ (∃ r ∈ resp.Records, r.Content = ch.Key) ∧
          res = .ok () ∧ t1 = t ++ pre ++ [listCall c ch (.ok resp)]) ∨
       (∃ c resp out, resp.Status = SUCCESS ∧ (∀ r ∈ resp.Records, r.Content ≠ ch.Key) ∧
          t1 = t ++ pre ++ [listCall c ch (.ok resp), createCall c ch out] ∧
          res = (match out with
            | .error err => .error (GoErr.errorfErr "failed to create DNS record: %w" [] err)
            | .ok cresp =>
              if cresp.Status ≠ SUCCESS then
                .error (GoErr.errorf "invalid status %q creating DNS record" [cresp.Status])
              else .ok ()))) := by
  obtain ⟨pre, hpre, hnpc⟩ := newPorkbunClient_run env ch s t
  refine ⟨pre, hpre, ?_⟩
  unfold Present at h
  rw [hnpc] at h
  cases hc : newPorkbunClient env ch s with
  | mk cout s2 =>
    rw [hc] at h
    cases cout with
    | error err =>
      left
      simp at h
      exact ⟨err, h.1.symm, h.2.2.symm⟩
    | ok c =>
      right
      simp only at h
      cases hl : env.retrieve c (UnFqdn ch.ResolvedZone)
          (getSubDomain (UnFqdn ch.ResolvedZone) ch.ResolvedFQDN) TXT s2 with
      | mk lout s3 =>
        cases lout with
        | error err =>
          left
          simp [Env.logged, hl] at h
          exact ⟨c, .error err, rfl, by simp [listCall, h.2.2.symm], by simp [h.1.symm]⟩
        | ok resp =>
          by_cases hst : resp.Status = SUCCESS
          · right
            by_cases hex : recordExists ch.Key resp.Records = true
            · left
              simp [Env.logged, hl, hst, hex] at h
              exact ⟨c, resp, hst, (recordExists_iff _ _).mp hex, h.1.symm,
                by simp [listCall, h.2.2.symm]⟩
            · right
              have hno : ∀ r ∈ resp.Records, r.Content ≠ ch.Key := by
                intro r hr hrc
                exact hex ((recordExists_iff _ _).mpr ⟨r, hr, hrc⟩)
              simp only [Env.logged, hl, hst, hex, ne_eq, not_true_eq_false, if_false] at h
              cases hcr : env.create c (UnFqdn ch.ResolvedZone)
                  ⟨getSubDomain (UnFqdn ch.ResolvedZone) ch.ResolvedFQDN, TXT, ch.Key,
                    ascii "60"⟩ s3 with
              | mk crout s4 =>
                refine ⟨c, resp, crout, hst, hno, ?_, ?_⟩
                · cases crout with
                  | error err =>
                    simp [hcr] at h
                    simp [listCall, createCall, h.2.2.symm]
                  | ok cresp =>
                    by_cases hcs : cresp.Status = SUCCESS
                    · simp [hcr, hcs] at h
                      simp [listCall, createCall, h.2.2.symm, hcs]
                    · simp [hcr, hcs] at h
                      simp [listCall, createCall, h.2.2.symm]
                · cases crout with
                  | error err =>
                    simp [hcr] at h
                    simp [h.1.symm]
                  | ok cresp =>
                    by_cases hcs : cresp.Status = SUCCESS
                    · simp [hcr, hcs] at h
                      simp [h.1.symm, hcs]
                    · simp [hcr, hcs] at h
                      simp [h.1.symm, hcs]
          · left
            simp [Env.logged, hl, hst] at h
            exact ⟨c, .ok resp, by simp [listFailed, hst],
              by simp [listCall, h.2.2.symm], by simp [h.1.symm]⟩

/-! ### The log is an observation only -/

theorem cleanUpLoop_logged {σ : Type} (env : Env σ) (c : Client) (dom tgt st : GoString) :
    ∀ (rs : List Record) (s : σ) (t : List Event),
      (cleanUpLoop env.logged c dom tgt st rs (s, t)).1 = (cleanUpLoop env c dom tgt st rs s).1 ∧
      (cleanUpLoop env.logged c dom tgt st rs (s, t)).2.1 = (cleanUpLoop env c dom tgt st rs s).2
  | [], s, t => by simp [cleanUpLoop]
  | rec :: rest, s, t => by
    by_cases hc : rec.Content = tgt
    · simp only [cleanUpLoop, hc, ne_eq, not_true_eq_false, if_false]
      cases hd : env.delete c dom rec.ID s with
      | mk out s2 =>
        cases out with
        | error err => simp [Env.logged, hd]
        | ok resp =>
          by_cases hst : resp.Status = SUCCESS
          · simp only [Env.logged, hd, hst, ne_eq, not_true_eq_false, if_false]
            exact cleanUpLoop_logged env c dom tgt st rest s2 _
          · simp [Env.logged, hd, hst]
    · simp only [cleanUpLoop, hc, ne_eq, not_false_eq_true, if_true]
      exact cleanUpLoop_logged env c dom tgt st rest s t

/-- Running `CleanUp` with the log gives the result and the state of running it
without. -/
theorem CleanUp_logged {σ : Type} (env : Env σ) (ch : ChallengeRequest) (s : σ)
    (t : List Event) :
    (CleanUp env.logged ch (s, t)).1 = (CleanUp env ch s).1 ∧
    (CleanUp env.logged ch (s, t)).2.1 = (CleanUp env ch s).2 := by
  obtain ⟨pre, _, hnpc⟩ := newPorkbunClient_run env ch s t
  unfold CleanUp
  rw [hnpc]
  cases hc : newPorkbunClient env ch s with
  | mk cout s2 =>
    cases cout with
    | error err => simp
    | ok c =>
      simp only
      cases hl : env.retrieve c (UnFqdn ch.ResolvedZone)
          (getSubDomain (UnFqdn ch.ResolvedZone) ch.ResolvedFQDN) TXT s2 with
      | mk lout s3 =>
        cases lout with
        | error err => simp [Env.logged, hl]
        | ok resp =>
          by_cases hst : resp.Status = SUCCESS
          · simp only [Env.logged, hl, hst, ne_eq, not_true_eq_false, if_false]
            exact cleanUpLoop_logged env c _ _ _ _ _ _
          · simp [Env.logged, hl, hst]

/-- Running `Present` with the log gives the result and the state of running it
without. -/
theorem Present_logged {σ : Type} (env : Env σ) (ch : ChallengeRequest) (s : σ)
    (t : List Event) :
    (Present env.logged ch (s, t)).1 = (Present env ch s).1 ∧
    (Present env.logged ch (s, t)).2.1 = (Present env ch s).2 := by
  obtain ⟨pre, _, hnpc⟩ := newPorkbunClient_run env ch s t
  unfold Present
  rw [hnpc]
  cases hc : newPorkbunClient env ch s with
  | mk cout s2 =>
    cases cout with
    | error err => simp
    | ok c =>
      simp only
      cases hl : env.retrieve c (UnFqdn ch.ResolvedZone)
          (getSubDomain (UnFqdn ch.ResolvedZone) ch.ResolvedFQDN) TXT s2 with
      | mk lout s3 =>
        cases lout with
        | error err => simp [Env.logged, hl]
        | ok resp =>
          by_cases hst : resp.Status = SUCCESS
          · by_cases hex : recordExists ch.Key resp.Records = true
            · simp [Env.logged, hl, hst, hex]
            · simp only [Env.logged, hl, hst, hex, ne_eq, not_true_eq_false, if_false]
              cases hcr : env.create c (UnFqdn ch.ResolvedZone)
                  ⟨getSubDomain (UnFqdn ch.ResolvedZone) ch.ResolvedFQDN, TXT, ch.Key,
                    ascii "60"⟩ s3 with
              | mk crout s4 =>
                cases crout with
                | error err => simp
                | ok cresp =>
                  by_cases hcs : cresp.Status = SUCCESS
                  · simp [hcs]
                  · simp [hcs]
          · simp [Env.logged, hl, hst]

theorem isCreate_of_isSecretsGet {e : Event} (h : e.isSecretsGet = true) :
    e.isCreate = false ∧ e.isDelete = false ∧ e.isRegistrar = false := by
  cases e <;> simp [Event.isSecretsGet, Event.isCreate, Event.isDelete, Event.isRegistrar] at h ⊢

theorem not_listFailed_of_success {resp : RecordsResponse} (h : resp.Status = SUCCESS) :
    listFailed (.ok resp) = false := by
  simp [listFailed, h]

/-! ## The claims about `Present` and `CleanUp` -/

theorem Present_list_failure {σ : Type} (env : Env σ) (ch : ChallengeRequest) (s : σ)
    (c : Client) (dom sub ty : GoString) (out : Except GoErr RecordsResponse)
    (hf : listFailed out = true) (res : Except GoErr Unit) (s1 : σ) (t1 : List Event)
    (hrun : Present env.logged ch (s, []) = (res, (s1, t1)))
    (hmem : Event.retrieve c dom sub ty out ∈ t1) :
    (∃ err, res = .error err) ∧ ∀ e ∈ t1, e.isCreate = false ∧ e.isDelete = false := by
  obtain ⟨pre, hpre, hcases⟩ := Present_run env ch s [] _ _ _ hrun
  rcases hcases with ⟨err, h1, h2⟩ | ⟨c1, out1, h1, h2, h3⟩ | ⟨c1, resp, h1, _, h3, h4⟩ |
    ⟨c1, resp, out1, h1, _, h3, h4⟩
  · rw [h2] at hmem
    have := hpre _ (by simpa using hmem)
    simp [Event.isSecretsGet] at this
  · refine ⟨⟨_, h3⟩, ?_⟩
    rw [h2]
    intro e he
    simp only [List.nil_append, List.mem_append, List.mem_singleton] at he
    rcases he with he | he
    · exact ⟨(isCreate_of_isSecretsGet (hpre e he)).1, (isCreate_of_isSecretsGet (hpre e he)).2.1⟩
    · subst he
      exact ⟨rfl, rfl⟩
  · rw [h4] at hmem
    simp only [List.nil_append, List.mem_append, List.mem_singleton] at hmem
    rcases hmem with he | he
    · have := hpre _ he
      simp [Event.isSecretsGet] at this
    · simp only [listCall, Event.retrieve.injEq] at he
      rw [he.2.2.2.2, not_listFailed_of_success h1] at hf
      cases hf
  · rw [h3] at hmem
    simp only [List.nil_append, List.mem_append, List.mem_cons, List.mem_singleton,
      List.not_mem_nil, or_false] at hmem
    rcases hmem with he | he | he
    · have := hpre _ he
      simp [Event.isSecretsGet] at this
    · simp only [listCall, Event.retrieve.injEq] at he
      rw [he.2.2.2.2, not_listFailed_of_success h1] at hf
      cases hf
    · simp [createCall] at he

theorem CleanUp_list_failure {σ : Type} (env : Env σ) (ch : ChallengeRequest) (s : σ)
    (c : Client) (dom sub ty : GoString) (out : Except GoErr RecordsResponse)
    (hf : listFailed out = true) (res : Except GoErr Unit) (s1 : σ) (t1 : List Event)
    (hrun : CleanUp env.logged ch (s, []) = (res, (s1, t1)))
    (hmem : Event.retrieve c dom sub ty out ∈ t1) :
    (∃ err, res = .error err) ∧ ∀ e ∈ t1, e.isCreate = false ∧ e.isDelete = false := by
  obtain ⟨pre, hpre, hcases⟩ := CleanUp_run env ch s [] _ _ _ hrun
  rcases hcases with ⟨err, h1, h2⟩ | ⟨c1, out1, h1, h2, h3⟩ | ⟨c1, resp, h1, hloop⟩
  · rw [h2] at hmem
    have := hpre _ (by simpa using hmem)
    simp [Event.isSecretsGet] at this
  · refine ⟨⟨_, h3⟩, ?_⟩
    rw [h2]
    intro e he
    simp only [List.nil_append, List.mem_append, List.mem_singleton] at he
    rcases he with he | he
    · exact ⟨(isCreate_of_isSecretsGet (hpre e he)).1, (isCreate_of_isSecretsGet (hpre e he)).2.1⟩
    · subst he
      exact ⟨rfl, rfl⟩
  · exfalso
    have key : ∀ evs : List Event, (∀ e ∈ evs, e.isDelete = true) →
        Event.retrieve c dom sub ty out ∈ [] ++ pre ++ listCall c1 ch (.ok resp) :: evs →
        False := by
      intro evs hevs hm
      simp only [List.nil_append, List.mem_append, List.mem_cons] at hm
      rcases hm with he | he | he
      · have := hpre _ he
        simp [Event.isSecretsGet] at this
      · simp only [listCall, Event.retrieve.injEq] at he
        rw [he.2.2.2.2, not_listFailed_of_success h1] at hf
        cases hf
      · have := hevs _ he
        simp [Event.isDelete] at this
    rcases hloop with ⟨_, h2⟩ | ⟨k, rk, out1, _, _, h2, _⟩
    · rw [h2] at hmem
      refine key _ ?_ hmem
      intro e he
      simp only [List.mem_map] at he
      obtain ⟨r, _, rfl⟩ := he
      rfl
    · rw [h2, List.append_assoc, List.cons_append] at hmem
      refine key _ ?_ hmem
      intro e he
      simp only [List.mem_append, List.mem_map, List.mem_singleton] at he
      rcases he with ⟨r, _, rfl⟩ | rfl
      · rfl
      · rfl

/-- C5: if the list call of a run returns an error or a response whose status
is not `"SUCCESS"` (whatever records the response carries), then `Present`
returns an error and its log holds no create and no delete call, and the same
is true of `CleanUp`. -/
theorem list_failure_stops {σ : Type} (env : Env σ) (ch : ChallengeRequest) (s : σ)
    (c : Client) (dom sub ty : GoString) (out : Except GoErr RecordsResponse)
    (hf : listFailed out = true) :
    (Event.retrieve c dom sub ty out ∈ (Present env.logged ch (s, [])).2.2 →
      (∃ err, (Present env.logged ch (s, [])).1 = .error err) ∧
      ∀ e ∈ (Present env.logged ch (s, [])).2.2, e.isCreate = false ∧ e.isDelete = false) ∧
    (Event.retrieve c dom sub ty out ∈ (CleanUp env.logged ch (s, [])).2.2 →
      (∃ err, (CleanUp env.logged ch (s, [])).1 = .error err) ∧
      ∀ e ∈ (CleanUp env.logged ch (s, [])).2.2, e.isCreate = false ∧ e.isDelete = false) :=
  ⟨Present_list_failure env ch s c dom sub ty out hf _ _ _ rfl,
    CleanUp_list_failure env ch s c dom sub ty out hf _ _ _ rfl⟩

/-! ### Reading a log -/

theorem filter_isRegistrar_lookups {pre : List Event} (hpre : ∀ e ∈ pre, e.isSecretsGet = true) :
    pre.filter Event.isRegistrar = [] := by
  rw [List.filter_eq_nil_iff]
  intro e he
  simp [(isCreate_of_isSecretsGet (hpre e he)).2.2]

theorem filter_isCreate_lookups {pre : List Event} (hpre : ∀ e ∈ pre, e.isSecretsGet = true) :
    pre.filter Event.isCreate = [] := by
  rw [List.filter_eq_nil_iff]
  intro e he
  simp [(isCreate_of_isSecretsGet (hpre e he)).1]

theorem filter_isRegistrar_deleted (c : Client) (dom : GoString) (m : List Record) :
    (m.map (deleted c dom)).filter Event.isRegistrar = m.map (deleted c dom) := by
  rw [List.filter_eq_self]
  intro e he
  obtain ⟨r, _, rfl⟩ := List.mem_map.mp he
  rfl

/-- The one list call of a log of the shape `lookups, list call, later calls`. -/
theorem retrieve_mem_run (pre evs : List Event) {c c1 : Client} {dom sub ty : GoString}
    {ch : ChallengeRequest} {out out1 : Except GoErr RecordsResponse}
    (hpre : ∀ e ∈ pre, e.isSecretsGet = true)
    (hevs : ∀ e ∈ evs, e.isCreate = true ∨ e.isDelete = true)
    (hm : Event.retrieve c dom sub ty out ∈ [] ++ pre ++ listCall c1 ch out1 :: evs) :
    c = c1 ∧ out = out1 := by
  simp only [List.nil_append, List.mem_append, List.mem_cons] at hm
  rcases hm with he | he | he
  · have := hpre _ he
    simp [Event.isSecretsGet] at this
  · simp only [listCall, Event.retrieve.injEq] at he
    exact ⟨he.1, he.2.2.2.2⟩
  · have := hevs _ he
    simp [Event.isCreate, Event.isDelete] at this

theorem callFailed_deleted_ok : callFailed (.ok ⟨SUCCESS⟩) = false := by
  simp [callFailed]

/-- A run of `CleanUp` whose log holds a failing delete call stopped at that
call: the log is the lookups, the list call (status `"SUCCESS"`), the
successful deletes of the matching records before the `k`-th, and the failing
delete of the `k`-th. -/
theorem CleanUp_failed_delete {σ : Type} (env : Env σ) (ch : ChallengeRequest) (s : σ)
    (res : Except GoErr Unit) (s1 : σ) (t1 : List Event)
    (hrun : CleanUp env.logged ch (s, []) = (res, (s1, t1)))
    (c2 : Client) (dom2 id : GoString) (out : Except GoErr StatusResponse)
    (hdel : Event.delete c2 dom2 id out ∈ t1) (hfail : callFailed out = true) :
    ∃ pre c resp k rk, (∀ e ∈ pre, e.isSecretsGet = true) ∧ resp.Status = SUCCESS ∧
      (matching ch.Key resp.Records)[k]? = some rk ∧ rk.ID = id ∧
      t1 = [] ++ pre ++ listCall c ch (.ok resp) ::
        ((matching ch.Key resp.Records).take k).map (deleted c (UnFqdn ch.ResolvedZone))
        ++ [Event.delete c (UnFqdn ch.ResolvedZone) rk.ID out] ∧
      res = .error (match out with
        | .error err => GoErr.errorfErr "failed to delete DNS record: %w" [] err
        | .ok _ => GoErr.errorf "invalid status %q deleting DNS record %q" [SUCCESS, rk.ID]) := by
  obtain ⟨pre, hpre, hcases⟩ := CleanUp_run env ch s [] _ _ _ hrun
  have notpre : ¬ Event.delete c2 dom2 id out ∈ pre := by
    intro he
    have := hpre _ he
    simp [Event.isSecretsGet] at this
  have notdeleted : ∀ (c : Client) (d : GoString) (m : List Record),
      ¬ Event.delete c2 dom2 id out ∈ m.map (deleted c d) := by
    intro c d m he
    obtain ⟨r, _, hr⟩ := List.mem_map.mp he
    simp only [deleted, Event.delete.injEq] at hr
    rw [← hr.2.2.2, callFailed_deleted_ok] at hfail
    cases hfail
  rcases hcases with ⟨err, h1, h2⟩ | ⟨c1, out1, h1, h2, h3⟩ | ⟨c1, resp, h1, hloop⟩
  · rw [h2] at hdel
    exact absurd (by simpa using hdel) notpre
  · rw [h2] at hdel
    simp only [List.nil_append, List.mem_append, List.mem_singleton, listCall] at hdel
    rcases hdel with he | he
    · exact absurd he notpre
    · cases he
  · rcases hloop with ⟨_, h2⟩ | ⟨k, rk, out1, hk, hf1, h2, h3⟩
    · rw [h2] at hdel
      simp only [List.nil_append, List.mem_append, List.mem_cons, listCall] at hdel
      rcases hdel with he | he | he
      · exact absurd he notpre
      · cases he
      · exact absurd he (notdeleted _ _ _)
    · rw [h2] at hdel
      simp only [List.nil_append, List.mem_append, List.mem_cons, List.mem_singleton,
        listCall, List.not_mem_nil, or_false] at hdel
      rcases hdel with (he | he | he) | he
      · exact absurd he notpre
      · cases he
      · exact absurd he (notdeleted _ _ _)
      · simp only [Event.delete.injEq] at he
        obtain ⟨_, _, hid, hout⟩ := he
        subst hout
        exact ⟨pre, c1, resp, k, rk, hpre, h1, hk, hid.symm, h2, h3⟩

theorem CleanUp_deletes_eq {σ : Type} (env : Env σ) (ch : ChallengeRequest) (s : σ)
    (res : Except GoErr Unit) (s1 : σ) (t1 : List Event)
    (hrun : CleanUp env.logged ch (s, []) = (res, (s1, t1)))
    (c : Client) (dom sub ty : GoString) (resp : RecordsResponse)
    (hmem : Event.retrieve c dom sub ty (.ok resp) ∈ t1) (hs : resp.Status = SUCCESS)
    (hd : ∀ e ∈ t1, e.deleteFailed = false) :
    res = .ok () ∧
    t1.filter Event.isRegistrar =
      listCall c ch (.ok resp) ::
        (matching ch.Key resp.Records).map (deleted c (UnFqdn ch.ResolvedZone)) := by
  obtain ⟨pre, hpre, hcases⟩ := CleanUp_run env ch s [] _ _ _ hrun
  rcases hcases with ⟨err, h1, h2⟩ | ⟨c1, out1, h1, h2, h3⟩ | ⟨c1, resp1, h1, hloop⟩
  · rw [h2] at hmem
    have := hpre _ (by simpa using hmem)
    simp [Event.isSecretsGet] at this
  · rw [h2] at hmem
    have := (retrieve_mem_run pre [] hpre (by simp) (by simpa using hmem)).2
    rw [← this, not_listFailed_of_success hs] at h1
    cases h1
  · rcases hloop with ⟨hres, h2⟩ | ⟨k, rk, out1, hk, hf1, h2, h3⟩
    · rw [h2] at hmem
      have hm := retrieve_mem_run _ _ hpre (by
        intro e he
        obtain ⟨r, _, rfl⟩ := List.mem_map.mp he
        exact Or.inr rfl) hmem
      obtain ⟨hc, hr⟩ := hm
      cases hr
      subst hc
      refine ⟨hres, ?_⟩
      rw [h2, List.nil_append, List.filter_append, filter_isRegistrar_lookups hpre,
        List.nil_append, List.filter_cons_of_pos (by rfl), filter_isRegistrar_deleted]
    · exfalso
      have := hd (Event.delete c1 (UnFqdn ch.ResolvedZone) rk.ID out1) (by rw [h2]; simp)
      simp only [Event.deleteFailed] at this
      rw [this] at hf1
      cases hf1

/-- C4: in a run of `CleanUp` whose list call returned `resp` with status
`"SUCCESS"` and in which no delete call failed, `CleanUp` returns success and
the registrar calls of the log are the list call followed by one successful
delete-by-id call for each record of `resp` whose content equals the key, in
list order, and nothing else: every deleted id is the id of a record with the
key, and there is no create call. -/
theorem CleanUp_deletes_exactly_matching {σ : Type} (env : Env σ) (ch : ChallengeRequest)
    (s : σ) (c : Client) (dom sub ty : GoString) (resp : RecordsResponse)
    (hmem : Event.retrieve c dom sub ty (.ok resp) ∈ (CleanUp env.logged ch (s, [])).2.2)
    (hs : resp.Status = SUCCESS)
    (hd : ∀ e ∈ (CleanUp env.logged ch (s, [])).2.2, e.deleteFailed = false) :
    (CleanUp env.logged ch (s, [])).1 = .ok () ∧
    (CleanUp env.logged ch (s, [])).2.2.filter Event.isRegistrar =
      Event.retrieve c (UnFqdn ch.ResolvedZone)
          (getSubDomain (UnFqdn ch.ResolvedZone) ch.ResolvedFQDN) TXT (.ok resp) ::
        (resp.Records.filter (fun rec => rec.Content = ch.Key)).map
          (fun rec => Event.delete c (UnFqdn ch.ResolvedZone) rec.ID (.ok ⟨SUCCESS⟩)) ∧
    (∀ c2 dom2 id out, Event.delete c2 dom2 id out ∈ (CleanUp env.logged ch (s, [])).2.2 →
      ∃ rec ∈ resp.Records, rec.Content = ch.Key ∧ rec.ID = id) ∧
    (∀ e ∈ (CleanUp env.logged ch (s, [])).2.2, e.isCreate = false) := by
  have h := CleanUp_deletes_eq env ch s _ _ _ rfl c dom sub ty resp hmem hs hd
  have hreg : ∀ e ∈ (CleanUp env.logged ch (s, [])).2.2, e.isRegistrar = true →
      e ∈ listCall c ch (.ok resp) ::
        (matching ch.Key resp.Records).map (deleted c (UnFqdn ch.ResolvedZone)) := by
    intro e he hr
    rw [← h.2]
    exact List.mem_filter.mpr ⟨he, hr⟩
  refine ⟨h.1, h.2, ?_, ?_⟩
  · intro c2 dom2 id out he
    rcases List.mem_cons.mp (hreg _ he rfl) with h0 | h0
    · simp [listCall] at h0
    obtain ⟨r, hr, hrd⟩ := List.mem_map.mp h0
    simp only [deleted, Event.delete.injEq] at hrd
    have hr2 := List.mem_filter.mp hr
    exact ⟨r, hr2.1, by simpa using hr2.2, hrd.2.2.1⟩
  · intro e he
    cases e with
    | secretsGet ns name => rfl
    | retrieve c3 d3 s3 t3 o3 => rfl
    | delete c3 d3 i3 o3 => rfl
    | create c3 d3 r3 o3 =>
      rcases List.mem_cons.mp (hreg _ he rfl) with h0 | h0
      · simp [listCall] at h0
      obtain ⟨r, _, hrd⟩ := List.mem_map.mp h0
      simp [deleted] at hrd

/-- Witness of C4: the list call returns records `1` (key), `2` (other
content) and `3` (key); the registrar calls are the list call, delete `1` and
delete `3`. -/
theorem CleanUp_deletes_exactly_matching_witness :
    (CleanUp (stubEnv (.ok ⟨SUCCESS, sampleRecords⟩) (.ok ⟨SUCCESS⟩)
        (fun _ => .ok ⟨SUCCESS⟩)).logged sampleChallenge ((), [])).2.2.filter Event.isRegistrar =
      [Event.retrieve sampleClient (ascii "example.com") (ascii "_acme-challenge") TXT
          (.ok ⟨SUCCESS, sampleRecords⟩),
        Event.delete sampleClient (ascii "example.com") (ascii "1") (.ok ⟨SUCCESS⟩),
        Event.delete sampleClient (ascii "example.com") (ascii "3") (.ok ⟨SUCCESS⟩)] :=
  (CleanUp_deletes_exactly_matching
    (stubEnv (.ok ⟨SUCCESS, sampleRecords⟩) (.ok ⟨SUCCESS⟩) (fun _ => .ok ⟨SUCCESS⟩))
    sampleChallenge () sampleClient (ascii "example.com") (ascii "_acme-challenge") TXT
    ⟨SUCCESS, sampleRecords⟩ (by decide) (by decide) (by decide)).2.1

/-- Witness of C5: the list call answers with status `"ERROR"` and three
records; `Present` fails and its log holds no create and no delete call. -/
theorem list_failure_stops_witness :
    (∃ err, (Present (stubEnv (.ok ⟨ascii "ERROR", sampleRecords⟩) (.ok ⟨SUCCESS⟩)
        (fun _ => .ok ⟨SUCCESS⟩)).logged sampleChallenge ((), [])).1 = .error err) ∧
    ∀ e ∈ (Present (stubEnv (.ok ⟨ascii "ERROR", sampleRecords⟩) (.ok ⟨SUCCESS⟩)
        (fun _ => .ok ⟨SUCCESS⟩)).logged sampleChallenge ((), [])).2.2,
      e.isCreate = false ∧ e.isDelete = false :=
  (list_failure_stops
    (stubEnv (.ok ⟨ascii "ERROR", sampleRecords⟩) (.ok ⟨SUCCESS⟩) (fun _ => .ok ⟨SUCCESS⟩))
    sampleChallenge () sampleClient (ascii "example.com") (ascii "_acme-challenge") TXT
    (.ok ⟨ascii "ERROR", sampleRecords⟩) (by decide)).1 (by decide)

theorem Present_create_eq {σ : Type} (env : Env σ) (ch : ChallengeRequest) (s : σ)
    (res : Except GoErr Unit) (s1 : σ) (t1 : List Event)
    (hrun : Present env.logged ch (s, []) = (res, (s1, t1)))
    (c : Client) (dom sub ty : GoString) (resp : RecordsResponse)
    (hmem : Event.retrieve c dom sub ty (.ok resp) ∈ t1) (hs : resp.Status = SUCCESS) :
    ((∃ r ∈ resp.Records, r.Content = ch.Key) →
      res = .ok () ∧ t1.filter Event.isCreate = []) ∧
    ((∀ r ∈ resp.Records, r.Content ≠ ch.Key) →
      ∃ out, t1.filter Event.isCreate = [createCall c ch out] ∧
        (res = .ok () ↔ out = .ok ⟨SUCCESS⟩)) := by
  obtain ⟨pre, hpre, hcases⟩ := Present_run env ch s [] _ _ _ hrun
  rcases hcases with ⟨err, h1, h2⟩ | ⟨c1, out1, h1, h2, h3⟩ | ⟨c1, resp1, h1, hex, h3, h4⟩ |
    ⟨c1, resp1, out1, h1, hno, h3, h4⟩
  · rw [h2] at hmem
    have := hpre _ (by simpa using hmem)
    simp [Event.isSecretsGet] at this
  · rw [h2] at hmem
    have := (retrieve_mem_run pre [] hpre (by simp) (by simpa using hmem)).2
    rw [← this, not_listFailed_of_success hs] at h1
    cases h1
  · rw [h4] at hmem
    obtain ⟨hc, hr⟩ := retrieve_mem_run pre [] hpre (by simp) (by simpa using hmem)
    cases hr
    constructor
    · intro _
      refine ⟨h3, ?_⟩
      rw [h4, List.nil_append, List.filter_append, filter_isCreate_lookups hpre]
      rfl
    · intro hno
      obtain ⟨r, hr, hrc⟩ := hex
      exact absurd hrc (hno r hr)
  · rw [h3] at hmem
    obtain ⟨hc, hr⟩ := retrieve_mem_run pre [createCall c1 ch out1] hpre
      (by intro e he; rw [List.mem_singleton.mp he]; exact Or.inl rfl) hmem
    cases hr
    subst hc
    constructor
    · rintro ⟨r, hr, hrc⟩
      exact absurd hrc (hno r hr)
    · intro _
      refine ⟨out1, ?_, ?_⟩
      · rw [h3, List.nil_append, List.filter_append, filter_isCreate_lookups hpre]
        rfl
      · rw [h4]
        cases out1 with
        | error err => simp
        | ok cresp =>
          cases cresp with
          | mk st =>
            by_cases hst : st = SUCCESS
            · simp [hst]
            · simp [hst]

/-- C7: in a run of `Present` whose list call returned `resp` with status
`"SUCCESS"`: if some record of `resp` has content equal to the key, `Present`
returns success and the log holds no create call; otherwise the log holds
exactly one create call, on the resolved zone without its trailing dot, with
name `getSubDomain domain ResolvedFQDN`, type `"TXT"`, content the key and TTL
`"60"`, and `Present` returns success exactly when that call returned a
response with status `"SUCCESS"`. -/
theorem Present_creates_once {σ : Type} (env : Env σ) (ch : ChallengeRequest) (s : σ)
    (c : Client) (dom sub ty : GoString) (resp : RecordsResponse)
    (hmem : Event.retrieve c dom sub ty (.ok resp) ∈ (Present env.logged ch (s, [])).2.2)
    (hs : resp.Status = SUCCESS) :
    ((∃ r ∈ resp.Records, r.Content = ch.Key) →
      (Present env.logged ch (s, [])).1 = .ok () ∧
      (Present env.logged ch (s, [])).2.2.filter Event.isCreate = []) ∧
    ((∀ r ∈ resp.Records, r.Content ≠ ch.Key) →
      ∃ out, (Present env.logged ch (s, [])).2.2.filter Event.isCreate =
          [Event.create c (UnFqdn ch.ResolvedZone)
            ⟨getSubDomain (UnFqdn ch.ResolvedZone) ch.ResolvedFQDN, TXT, ch.Key, ascii "60"⟩
            out] ∧
        ((Present env.logged ch (s, [])).1 = .ok () ↔ out = .ok ⟨SUCCESS⟩)) :=
  Present_create_eq env ch s _ _ _ rfl c dom sub ty resp hmem hs

/-- Witness of C7: the list call returns only record `2`, whose content is not
the key, and the create call answers `"SUCCESS"`; `Present` issues one create
call for `_acme-challenge` under `example.com` and succeeds. -/
theorem Present_creates_once_witness :
    ∃ out, (Present (stubEnv (.ok ⟨SUCCESS, sampleRecords.drop 1 |>.take 1⟩) (.ok ⟨SUCCESS⟩)
        (fun _ => .ok ⟨SUCCESS⟩)).logged sampleChallenge ((), [])).2.2.filter Event.isCreate =
        [Event.create sampleClient (UnFqdn sampleChallenge.ResolvedZone)
          ⟨getSubDomain (UnFqdn sampleChallenge.ResolvedZone) sampleChallenge.ResolvedFQDN,
            TXT, sampleChallenge.Key, ascii "60"⟩ out] ∧
      ((Present (stubEnv (.ok ⟨SUCCESS, sampleRecords.drop 1 |>.take 1⟩) (.ok ⟨SUCCESS⟩)
        (fun _ => .ok ⟨SUCCESS⟩)).logged sampleChallenge ((), [])).1 = .ok () ↔
        out = .ok ⟨SUCCESS⟩) :=
  (Present_creates_once
    (stubEnv (.ok ⟨SUCCESS, sampleRecords.drop 1 |>.take 1⟩) (.ok ⟨SUCCESS⟩)
      (fun _ => .ok ⟨SUCCESS⟩))
    sampleChallenge () sampleClient (ascii "example.com") (ascii "_acme-challenge") TXT
    ⟨SUCCESS, sampleRecords.drop 1 |>.take 1⟩ (by decide) (by decide)).2 (by decide)

theorem CleanUp_delete_error_eq {σ : Type} (env : Env σ)
    (ch : ChallengeRequest) (s : σ) (res : Except GoErr Unit) (s1 : σ) (t1 : List Event)
    (hrun : CleanUp env.logged ch (s, []) = (res, (s1, t1)))
    (c2 : Client) (dom2 id : GoString) (dresp : StatusResponse)
    (hdel : Event.delete c2 dom2 id (.ok dresp) ∈ t1)
    (hne : dresp.Status ≠ SUCCESS) :
    ∃ c resp, listCall c ch (.ok resp) ∈ t1 ∧ resp.Status = SUCCESS ∧
      res = .error (.errorf "invalid status %q deleting DNS record %q" [resp.Status, id]) ∧
      resp.Status ≠ dresp.Status := by
  obtain ⟨pre, c, resp, k, rk, hpre, hst, hk, hid, ht, hres⟩ :=
    CleanUp_failed_delete env ch s _ _ _ hrun c2 dom2 id (.ok dresp) hdel
      (by simp [callFailed, hne])
  refine ⟨c, resp, ?_, hst, ?_, ?_⟩
  · rw [ht]
    simp
  · rw [hres, hst, hid]
  · rw [hst]
    exact fun h => hne h.symm

/-- C8: when a delete call of `CleanUp` returns a response whose status is not
`"SUCCESS"`, the error that `CleanUp` returns is built from the status of the
list response of the run, which is `"SUCCESS"`, and the record id; the status
of the failing delete response is not in it. -/
theorem CleanUp_delete_error_reports_list_status {σ : Type} (env : Env σ)
    (ch : ChallengeRequest) (s : σ) (c2 : Client) (dom2 id : GoString)
    (dresp : StatusResponse)
    (hdel : Event.delete c2 dom2 id (.ok dresp) ∈ (CleanUp env.logged ch (s, [])).2.2)
    (hne : dresp.Status ≠ SUCCESS) :
    ∃ c resp,
      Event.retrieve c (UnFqdn ch.ResolvedZone)
        (getSubDomain (UnFqdn ch.ResolvedZone) ch.ResolvedFQDN) TXT (.ok resp)
        ∈ (CleanUp env.logged ch (s, [])).2.2 ∧
      resp.Status = SUCCESS ∧
      (CleanUp env.logged ch (s, [])).1 =
        .error (.errorf "invalid status %q deleting DNS record %q" [resp.Status, id]) ∧
      resp.Status ≠ dresp.Status :=
  CleanUp_delete_error_eq env ch s _ _ _ rfl c2 dom2 id dresp hdel hne

/-- Witness of C8: the delete of record `3` answers with status `"ERROR"`;
the error of `CleanUp` carries `"SUCCESS"` and the id `3`. -/
theorem CleanUp_delete_error_reports_list_status_witness :
    (CleanUp (stubEnv (.ok ⟨SUCCESS, sampleRecords⟩) (.ok ⟨SUCCESS⟩) failOnThree).logged
        sampleChallenge ((), [])).1 =
      .error (.errorf "invalid status %q deleting DNS record %q" [SUCCESS, ascii "3"]) := by
  obtain ⟨c, resp, _, h2, h3, _⟩ := CleanUp_delete_error_reports_list_status
    (stubEnv (.ok ⟨SUCCESS, sampleRecords⟩) (.ok ⟨SUCCESS⟩) failOnThree)
    sampleChallenge () sampleClient (ascii "example.com") (ascii "3") ⟨ascii "ERROR"⟩
    (by decide) (by decide)
  rw [h3, h2]

theorem CleanUp_stops_at_failure {σ : Type} (env : Env σ) (ch : ChallengeRequest) (s : σ)
    (res : Except GoErr Unit) (s1 : σ) (t1 : List Event)
    (hrun : CleanUp env.logged ch (s, []) = (res, (s1, t1)))
    (c : Client) (dom sub ty : GoString) (resp : RecordsResponse)
    (hmem : Event.retrieve c dom sub ty (.ok resp) ∈ t1)
    (c2 : Client) (dom2 id : GoString) (out : Except GoErr StatusResponse)
    (hdel : Event.delete c2 dom2 id out ∈ t1)
    (hfail : callFailed out = true) :
    resp.Status = SUCCESS ∧ (∃ err, res = .error err) ∧
    ∃ k rk, (matching ch.Key resp.Records)[k]? = some rk ∧ rk.ID = id ∧
      t1.filter Event.isRegistrar =
        listCall c ch (.ok resp) ::
          ((matching ch.Key resp.Records).take k).map (deleted c (UnFqdn ch.ResolvedZone))
          ++ [Event.delete c (UnFqdn ch.ResolvedZone) id out] := by
  obtain ⟨pre, c1, resp1, k, rk, hpre, hst, hk, hid, ht, hres⟩ :=
    CleanUp_failed_delete env ch s _ _ _ hrun c2 dom2 id out hdel hfail
  rw [ht] at hmem
  rw [List.append_assoc, List.cons_append] at hmem
  obtain ⟨hc, hr⟩ := retrieve_mem_run _ _ hpre (by
    intro e he
    rcases List.mem_append.mp he with he | he
    · obtain ⟨r, _, rfl⟩ := List.mem_map.mp he
      exact Or.inr rfl
    · rw [List.mem_singleton.mp he]
      exact Or.inr rfl) hmem
  cases hr
  subst hc
  refine ⟨hst, ⟨_, hres⟩, k, rk, hk, hid, ?_⟩
  rw [ht, List.nil_append, List.filter_append, List.filter_append,
    filter_isRegistrar_lookups hpre, List.nil_append, List.filter_cons_of_pos (by rfl),
    filter_isRegistrar_deleted, hid]
  rfl

/-- C10: in a run of `CleanUp` whose list call returned the response `resp`, if
a delete call failed (error, or status other than `"SUCCESS"`), then the
status of `resp` is `"SUCCESS"`, `CleanUp` returns an error, and the registrar
calls of the log are: the list call, one successful delete for each of the
matching records before the `k`-th, and the failing delete of the `k`-th as
the last call. No delete is issued for a later record and no call follows the
failure, so nothing undoes the deletions already made. -/
theorem CleanUp_fail_fast {σ : Type} (env : Env σ) (ch : ChallengeRequest) (s : σ)
    (c : Client) (dom sub ty : GoString) (resp : RecordsResponse)
    (hmem : Event.retrieve c dom sub ty (.ok resp) ∈ (CleanUp env.logged ch (s, [])).2.2)
    (c2 : Client) (dom2 id : GoString) (out : Except GoErr StatusResponse)
    (hdel : Event.delete c2 dom2 id out ∈ (CleanUp env.logged ch (s, [])).2.2)
    (hfail : callFailed out = true) :
    resp.Status = SUCCESS ∧
    (∃ err, (CleanUp env.logged ch (s, [])).1 = .error err) ∧
    ∃ k rk, (resp.Records.filter (fun rec => rec.Content = ch.Key))[k]? = some rk ∧
      rk.ID = id ∧
      (CleanUp env.logged ch (s, [])).2.2.filter Event.isRegistrar =
        Event.retrieve c (UnFqdn ch.ResolvedZone)
            (getSubDomain (UnFqdn ch.ResolvedZone) ch.ResolvedFQDN) TXT (.ok resp) ::
          ((resp.Records.filter (fun rec => rec.Content = ch.Key)).take k).map
            (fun rec => Event.delete c (UnFqdn ch.ResolvedZone) rec.ID (.ok ⟨SUCCESS⟩))
          ++ [Event.delete c (UnFqdn ch.ResolvedZone) id out] :=
  CleanUp_stops_at_failure env ch s _ _ _ rfl c dom sub ty resp hmem c2 dom2 id out hdel hfail

/-- Witness of C10: records `1` and `3` hold the key and the delete of `3`
fails; `CleanUp` returns an error after the list call, delete `1` and
delete `3`. -/
theorem CleanUp_fail_fast_witness :
    ∃ err, (CleanUp (stubEnv (.ok ⟨SUCCESS, sampleRecords⟩) (.ok ⟨SUCCESS⟩) failOnThree).logged
        sampleChallenge ((), [])).1 = .error err :=
  (CleanUp_fail_fast
    (stubEnv (.ok ⟨SUCCESS, sampleRecords⟩) (.ok ⟨SUCCESS⟩) failOnThree)
    sampleChallenge () sampleClient (ascii "example.com") (ascii "_acme-challenge") TXT
    ⟨SUCCESS, sampleRecords⟩ (by decide)
    sampleClient (ascii "example.com") (ascii "3") (.ok ⟨ascii "ERROR"⟩)
    (by decide) (by decide)).2.1

/-! ## Configuration and credentials -/

/-- C6: for a decoded configuration whose `apiKey` reference has an empty name:
without ambient credentials `newPorkbunClient` fails with the validation error
and `Present` and `CleanUp` fail on it, all three with an empty log (no secret
lookup, no registrar call); with ambient credentials the empty reference
resolves to the empty string with no lookup and `newPorkbunClient` is decided
by the resolution of `secretApiKey` alone. And `validate` returns an error
exactly when one of the two names is empty. -/
theorem empty_apiKey_name {σ : Type} (env : Env σ) (ch : ChallengeRequest) (s : σ)
    (cfg : porkbunDNSProviderConfig) (hcfg : loadConfig env ch.Config = .ok cfg)
    (hname : cfg.APIKey.Name = []) :
    (ch.AllowAmbientCredentials = false →
      newPorkbunClient env.logged ch (s, []) =
        (.error (.errorfErr "invalid config: %w" []
          (.new "no API key given in porkbun webhook config")), (s, [])) ∧
      Present env.logged ch (s, []) =
        (.error (.errorfErr "failed to init Porkbun client: %w" []
          (.errorfErr "invalid config: %w" []
            (.new "no API key given in porkbun webhook config"))), (s, [])) ∧
      CleanUp env.logged ch (s, []) =
        (.error (.errorfErr "failed to init Porkbun client: %w" []
          (.errorfErr "invalid config: %w" []
            (.new "no API key given in porkbun webhook config"))), (s, []))) ∧
    (ch.AllowAmbientCredentials = true →
      secret env.logged cfg.APIKey ch.ResourceNamespace (s, []) = (.ok [], (s, [])) ∧
      newPorkbunClient env.logged ch (s, []) =
        (match secret env.logged cfg.SecretAPIKey ch.ResourceNamespace (s, []) with
          | (.error err, w) => (.error err, w)
          | (.ok secretAPIKey, w) => (.ok ⟨secretAPIKey, []⟩, w)) ∧
      (cfg.SecretAPIKey.Name = [] →
        newPorkbunClient env.logged ch (s, []) = (.ok ⟨[], []⟩, (s, [])))) ∧
    (∀ cfg2 : porkbunDNSProviderConfig,
      (∃ err, validate cfg2 = .error err) ↔
        cfg2.APIKey.Name = [] ∨ cfg2.SecretAPIKey.Name = []) := by
  have hload : loadConfig env.logged ch.Config = .ok cfg := hcfg
  refine ⟨fun hamb => ?_, fun hamb => ?_, fun cfg2 => ?_⟩
  · have hnpc : newPorkbunClient env.logged ch (s, []) =
        (.error (.errorfErr "invalid config: %w" []
          (.new "no API key given in porkbun webhook config")), (s, [])) := by
      simp [newPorkbunClient, hload, hamb, validate, hname]
    refine ⟨hnpc, ?_, ?_⟩
    · simp [Present, hnpc]
    · simp [CleanUp, hnpc]
  · have hsec : secret env.logged cfg.APIKey ch.ResourceNamespace (s, []) = (.ok [], (s, [])) := by
      simp [secret, hname]
    have hnpc : newPorkbunClient env.logged ch (s, []) =
        (match secret env.logged cfg.SecretAPIKey ch.ResourceNamespace (s, []) with
          | (.error err, w) => (.error err, w)
          | (.ok secretAPIKey, w) => (.ok ⟨secretAPIKey, []⟩, w)) := by
      cases hs2 : secret env.logged cfg.SecretAPIKey ch.ResourceNamespace (s, []) with
      | mk r w => cases r <;> simp [newPorkbunClient, hload, hamb, hsec, hs2]
    refine ⟨hsec, hnpc, ?_⟩
    intro h2
    rw [hnpc]
    simp [secret, h2]
  · by_cases h1 : cfg2.APIKey.Name = []
    · simp [validate, h1]
    · by_cases h2 : cfg2.SecretAPIKey.Name = []
      · simp [validate, h1, h2]
      · simp [validate, h1, h2]

/-- Witness of C6: a request without configuration (both references empty):
without ambient credentials `Present` fails on validation with an empty log;
with them the client is built with empty credentials and no lookup. -/
theorem empty_apiKey_name_witness :
    Present (stubEnv (.ok ⟨SUCCESS, []⟩) (.ok ⟨SUCCESS⟩) (fun _ => .ok ⟨SUCCESS⟩)).logged
        { sampleChallenge with Config := none } ((), []) =
      (.error (.errorfErr "failed to init Porkbun client: %w" []
        (.errorfErr "invalid config: %w" []
          (.new "no API key given in porkbun webhook config"))), ((), [])) ∧
    newPorkbunClient (stubEnv (.ok ⟨SUCCESS, []⟩) (.ok ⟨SUCCESS⟩) (fun _ => .ok ⟨SUCCESS⟩)).logged
        { sampleChallenge with Config := none, AllowAmbientCredentials := true } ((), []) =
      (.ok ⟨[], []⟩, ((), [])) :=
  ⟨((empty_apiKey_name
      (stubEnv (.ok ⟨SUCCESS, []⟩) (.ok ⟨SUCCESS⟩) (fun _ => .ok ⟨SUCCESS⟩))
      { sampleChallenge with Config := none } () ⟨⟨[], []⟩, ⟨[], []⟩⟩ rfl rfl).1 rfl).2.1,
    ((empty_apiKey_name
      (stubEnv (.ok ⟨SUCCESS, []⟩) (.ok ⟨SUCCESS⟩) (fun _ => .ok ⟨SUCCESS⟩))
      { sampleChallenge with Config := none, AllowAmbientCredentials := true } ()
      ⟨⟨[], []⟩, ⟨[], []⟩⟩ rfl rfl).2.1 rfl).2.2 rfl⟩

/-! ## Idempotence of `Present` over the registrar -/

theorem secret_registrarEnv (u : GoString → Except GoErr porkbunDNSProviderConfig)
    (sec : GoString → GoString → Except GoErr Secret) (ref : SecretKeySelector)
    (ns : GoString) (st st0 : Registrar) :
    secret (registrarEnv u sec) ref ns st = ((secret (registrarEnv u sec) ref ns st0).1, st) := by
  unfold secret
  by_cases hn : ref.Name = []
  · simp [hn]
  · simp only [hn, if_false, registrarEnv]
    cases sec ns ref.Name with
    | error err => rfl
    | ok sc =>
      cases hk : sc.Data ref.Key with
      | none => simp [hk]
      | some b => simp [hk]

/-- Over the registrar, building the client does not touch the state and does
not depend on it. -/
theorem newPorkbunClient_registrarEnv (u : GoString → Except GoErr porkbunDNSProviderConfig)
    (sec : GoString → GoString → Except GoErr Secret) (ch : ChallengeRequest)
    (st st0 : Registrar) :
    newPorkbunClient (registrarEnv u sec) ch st =
      ((newPorkbunClient (registrarEnv u sec) ch st0).1, st) := by
  unfold newPorkbunClient
  cases loadConfig (registrarEnv u sec) ch.Config with
  | error err => rfl
  | ok cfg =>
    simp only
    cases (if (!ch.AllowAmbientCredentials) = true then validate cfg else Except.ok ()) with
    | error err => rfl
    | ok v =>
      simp only
      rw [secret_registrarEnv u sec cfg.APIKey ch.ResourceNamespace st st0]
      cases h1 : (secret (registrarEnv u sec) cfg.APIKey ch.ResourceNamespace st0) with
      | mk o1 s1 =>
        have hs1 : s1 = st0 := by
          have := secret_registrarEnv u sec cfg.APIKey ch.ResourceNamespace st0 st0
          rw [h1] at this
          exact (Prod.mk.inj this).2
        subst hs1
        cases o1 with
        | error err => rfl
        | ok k1 =>
          simp only
          rw [secret_registrarEnv u sec cfg.SecretAPIKey ch.ResourceNamespace st s1]
          cases (secret (registrarEnv u sec) cfg.SecretAPIKey ch.ResourceNamespace s1) with
          | mk o2 s2 =>
            cases o2 with
            | error err => rfl
            | ok k2 => rfl

/-- One run of `Present` over the registrar, when the credentials resolve: if
a record with the key is listed nothing is created, otherwise the record is
added. -/
theorem Present_registrarEnv (u : GoString → Except GoErr porkbunDNSProviderConfig)
    (sec : GoString → GoString → Except GoErr Secret) (ch : ChallengeRequest)
    (st : Registrar) (t : List Event) (creds : Client)
    (hc : (newPorkbunClient (registrarEnv u sec) ch st).1 = .ok creds) :
    ∃ pre : List Event, (∀ e ∈ pre, e.isSecretsGet = true) ∧
      Present (registrarEnv u sec).logged ch (st, t) =
        if recordExists ch.Key (st.list (UnFqdn ch.ResolvedZone)
            (getSubDomain (UnFqdn ch.ResolvedZone) ch.ResolvedFQDN) TXT) = true then
          (.ok (), (st, t ++ pre ++ [listCall creds ch (.ok ⟨SUCCESS,
            st.list (UnFqdn ch.ResolvedZone)
              (getSubDomain (UnFqdn ch.ResolvedZone) ch.ResolvedFQDN) TXT⟩)]))
        else
          (.ok (), (st.add (UnFqdn ch.ResolvedZone)
              ⟨getSubDomain (UnFqdn ch.ResolvedZone) ch.ResolvedFQDN, TXT, ch.Key, ascii "60"⟩,
            t ++ pre ++ [listCall creds ch (.ok ⟨SUCCESS,
              st.list (UnFqdn ch.ResolvedZone)
                (getSubDomain (UnFqdn ch.ResolvedZone) ch.ResolvedFQDN) TXT⟩),
              createCall creds ch (.ok ⟨SUCCESS⟩)])) := by
  obtain ⟨pre, hpre, hnpc⟩ := newPorkbunClient_run (registrarEnv u sec) ch st t
  have hst : newPorkbunClient (registrarEnv u sec) ch st = (.ok creds, st) := by
    rw [newPorkbunClient_registrarEnv u sec ch st st, hc]
  rw [hst] at hnpc
  refine ⟨pre, hpre, ?_⟩
  unfold Present
  rw [hnpc]
  by_cases hex : recordExists ch.Key (st.list (UnFqdn ch.ResolvedZone)
      (getSubDomain (UnFqdn ch.ResolvedZone) ch.ResolvedFQDN) TXT) = true
  · simp [Env.logged, registrarEnv, hex, listCall]
  · simp [Env.logged, registrarEnv, hex, listCall, createCall]

/-- After the record is added, the list call returns a record with the key. -/
theorem recordExists_add (st : Registrar) (dom sub key ttl : GoString) :
    recordExists key ((st.add dom ⟨sub, TXT, key, ttl⟩).list dom sub TXT) = true := by
  rw [recordExists_iff]
  refine ⟨⟨ascii (toString st.nextID), sub, TXT, key, ttl⟩, ?_, rfl⟩
  simp [Registrar.list, Registrar.add]

/-- C3: over the registrar in which every call succeeds, a successful create
adds the record and the list call returns the TXT records under
(domain, subdomain), when the credentials resolve: `Present` called twice with
the same challenge returns success both times, the second call leaves the
registrar state unchanged and issues no create call, and the two calls issue
one create call in total when no listed record held the key at the start, and
none when one did. -/
theorem Present_idempotent (u : GoString → Except GoErr porkbunDNSProviderConfig)
    (sec : GoString → GoString → Except GoErr Secret) (ch : ChallengeRequest)
    (st : Registrar) (creds : Client)
    (hc : (newPorkbunClient (registrarEnv u sec) ch st).1 = .ok creds) :
    (Present (registrarEnv u sec).logged ch (st, [])).1 = .ok () ∧
    (Present (registrarEnv u sec).logged ch
      (Present (registrarEnv u sec).logged ch (st, [])).2).1 = .ok () ∧
    (Present (registrarEnv u sec).logged ch
      (Present (registrarEnv u sec).logged ch (st, [])).2).2.1 =
        (Present (registrarEnv u sec).logged ch (st, [])).2.1 ∧
    ((Present (registrarEnv u sec).logged ch
      (Present (registrarEnv u sec).logged ch (st, [])).2).2.2.filter Event.isCreate).length =
        ((Present (registrarEnv u sec).logged ch (st, [])).2.2.filter Event.isCreate).length ∧
    ((Present (registrarEnv u sec).logged ch
      (Present (registrarEnv u sec).logged ch (st, [])).2).2.2.filter Event.isCreate).length =
        (if ∃ r ∈ st.list (UnFqdn ch.ResolvedZone)
            (getSubDomain (UnFqdn ch.ResolvedZone) ch.ResolvedFQDN) TXT, r.Content = ch.Key
          then 0 else 1) := by
  obtain ⟨pre1, hpre1, h1⟩ := Present_registrarEnv u sec ch st [] creds hc
  by_cases hex : recordExists ch.Key (st.list (UnFqdn ch.ResolvedZone)
      (getSubDomain (UnFqdn ch.ResolvedZone) ch.ResolvedFQDN) TXT) = true
  · rw [if_pos hex] at h1
    obtain ⟨pre2, hpre2, h2⟩ := Present_registrarEnv u sec ch st
      ([] ++ pre1 ++ [listCall creds ch (.ok ⟨SUCCESS,
        st.list (UnFqdn ch.ResolvedZone)
          (getSubDomain (UnFqdn ch.ResolvedZone) ch.ResolvedFQDN) TXT⟩)]) creds hc
    rw [if_pos hex] at h2
    rw [h1]
    simp only
    rw [h2]
    simp only [List.filter_append, filter_isCreate_lookups hpre1,
      filter_isCreate_lookups hpre2, if_pos ((recordExists_iff _ _).mp hex)]
    simp [listCall, Event.isCreate]
  · rw [if_neg hex] at h1
    have hc2 : (newPorkbunClient (registrarEnv u sec) ch
        (st.add (UnFqdn ch.ResolvedZone)
          ⟨getSubDomain (UnFqdn ch.ResolvedZone) ch.ResolvedFQDN, TXT, ch.Key, ascii "60"⟩)).1
        = .ok creds := by
      rw [newPorkbunClient_registrarEnv u sec ch _ st]
      exact hc
    obtain ⟨pre2, hpre2, h2⟩ := Present_registrarEnv u sec ch
      (st.add (UnFqdn ch.ResolvedZone)
        ⟨getSubDomain (UnFqdn ch.ResolvedZone) ch.ResolvedFQDN, TXT, ch.Key, ascii "60"⟩)
      ([] ++ pre1 ++ [listCall creds ch (.ok ⟨SUCCESS,
        st.list (UnFqdn ch.ResolvedZone)
          (getSubDomain (UnFqdn ch.ResolvedZone) ch.ResolvedFQDN) TXT⟩),
        createCall creds ch (.ok ⟨SUCCESS⟩)]) creds hc2
    rw [if_pos (recordExists_add _ _ _ _ _)] at h2
    rw [h1]
    simp only
    rw [h2]
    have hno : ¬ ∃ r ∈ st.list (UnFqdn ch.ResolvedZone)
        (getSubDomain (UnFqdn ch.ResolvedZone) ch.ResolvedFQDN) TXT, r.Content = ch.Key :=
      fun h => hex ((recordExists_iff _ _).mpr h)
    simp only [List.filter_append, filter_isCreate_lookups hpre1,
      filter_isCreate_lookups hpre2, if_neg hno]
    simp [listCall, createCall, Event.isCreate]

/-- Witness of C3: from the empty registrar, two calls of `Present` for
`sampleChallenge` issue one create call in total. -/
theorem Present_idempotent_witness :
    ((Present (registrarEnv sampleUnmarshal sampleSecrets).logged sampleChallenge
      (Present (registrarEnv sampleUnmarshal sampleSecrets).logged sampleChallenge
        (⟨[], 0⟩, [])).2).2.2.filter Event.isCreate).length = 1 :=
  (Present_idempotent sampleUnmarshal sampleSecrets sampleChallenge ⟨[], 0⟩ sampleClient
    (by decide)).2.2.2.2.trans (by decide)

end Porkbun
